import Mathlib

/-!
Verification of the `import` command of the dotin dotfile manager
(`src/commands/import.rs`).

Filesystem paths are modelled as lists of components (root-relative), the
filesystem as a function from paths to optional entries, and the effectful
Rust function `import` as a state-passing Lean function `importCmd` that
returns an outcome (success, recoverable error, or panic), the final
filesystem, and an ordered trace of observable events (skip reports,
symlink warnings, collision checks, directory creations, renames).

The two collaborator helpers that are not part of the sources here
(`utils::create_folder_at`, `utils::dedup_nested`) are modelled from the
spec's contracts; canonicalization and the same-filesystem test are
OS-level queries and are modelled as oracle parameters in `Env`.
-/

deriving instance DecidableEq for Except

namespace Dotin

/-- A filesystem path, as a list of components from the root. -/
abbrev Path := List String

/-- A filesystem entry: a regular file with contents, a directory, or a symlink. -/
inductive Entry
  | file (content : String)
  | dir
  | symlink (target : Path)
  deriving DecidableEq, Repr

/-- The filesystem: a map from paths to entries. -/
abbrev FS := Path → Option Entry

/-- Componentwise path-prefix test (Rust `Path::strip_prefix` succeeds iff this holds). -/
def isPre : Path → Path → Bool
  | [], _ => true
  | _ :: _, [] => false
  | a :: as, b :: bs => decide (a = b) && isPre as bs

/-- Rust `Path::strip_prefix`: the remainder of `p` after removing the prefix `pre`. -/
def stripPre (pre p : Path) : Option Path :=
  if isPre pre p then some (p.drop pre.length) else none

/-- Rust `Path::parent`: drop the last component; `none` for the root. -/
def parentPath (p : Path) : Option Path :=
  if p.isEmpty then none else some p.dropLast

/-- All nonempty prefixes of a path, shortest first, ending with the path itself. -/
def pathPrefixes (p : Path) : List Path :=
  (List.range p.length).map fun i => p.take (i + 1)

/-- Record a directory entry at `d`. -/
def setDir (fs : FS) (d : Path) : FS :=
  fun q => if q = d then some Entry.dir else fs q

/-- A slot where a directory may be created: empty, or already a directory. -/
def freeOrDir (fs : FS) (q : Path) : Bool :=
  match fs q with
  | none => true
  | some Entry.dir => true
  | some _ => false

/-- Rust `fs::create_dir_all`: create the directory and all missing ancestors;
fails if any ancestor slot is occupied by a non-directory. -/
def mkdirAll (fs : FS) (p : Path) : Option FS :=
  if (pathPrefixes p).all (freeOrDir fs) then
    some ((pathPrefixes p).foldl setDir fs)
  else none

/-- Modelled from the spec: the folder-creation collaborator
`utils::create_folder_at` is not among the sources here; per the spec's
contract it is idempotent (no error if the folder exists) and creates
missing ancestors, i.e. recursive directory creation. -/
def create_folder_at (fs : FS) (p : Path) : Option FS := mkdirAll fs p

/-- Rust `fs::rename`: move the whole subtree rooted at `src` to `dst`;
fails when the source does not exist. -/
def renameFs (fs : FS) (src dst : Path) : Option FS :=
  if (fs src).isSome then
    some fun q =>
      if isPre dst q then fs (src ++ q.drop dst.length)
      else if isPre src q then none
      else fs q
  else none

/-- Modelled from the spec: the helper `utils::dedup_nested` is not among
the sources here; per the spec's contract it removes any directory that is
a (strict) descendant of another directory in the list. -/
def dedup_nested (ds : List Path) : List Path :=
  ds.filter fun d => !(ds.any fun a => decide (a ≠ d) && isPre a d)

/-- Componentwise path order, using the string order on each component
(Rust `Vec::sort` on paths). -/
def pathLe : Path → Path → Bool
  | [], _ => true
  | _ :: _, [] => false
  | a :: as, b :: bs =>
    if a < b then true
    else if b < a then false
    else pathLe as bs

/-- Insert into a `pathLe`-sorted list. -/
def insertSorted (x : Path) : List Path → List Path
  | [] => [x]
  | y :: ys => if pathLe x y then x :: y :: ys else y :: insertSorted x ys

/-- Sort a list of paths by `pathLe` (insertion sort). -/
def sortPaths : List Path → List Path
  | [] => []
  | x :: xs => insertSorted x (sortPaths xs)

/-- `pathLe`-sortedness of a list of paths. -/
def pathsSorted : List Path → Bool
  | [] => true
  | [_] => true
  | a :: b :: t => pathLe a b && pathsSorted (b :: t)

/-- No element of the list is a strict descendant of another element. -/
def noNested (l : List Path) : Bool :=
  l.all fun d => l.all fun a => !(decide (a ≠ d) && isPre a d)

/-- The OS-level oracles used by `import`: `fs::canonicalize` (follows
symlinks, `none` models an I/O failure) and the same-filesystem test of
`utils::are_in_the_same_filesystem` (`none` models an I/O failure). -/
structure Env where
  canonicalize : Path → Option Path
  sameFilesystem : Path → Path → Option Bool

/-- Rust struct `FileToMove`: the original path and the planned destination. -/
structure FileToMove where
  path : Path
  to_path : Path
  deriving DecidableEq, Repr

/-- Observable events of one `import` run, in execution order: skip
reports, symlink warnings, the destination-collision checks, and the
filesystem mutations (group folder creation, intermediate directory
creation, renames). -/
inductive Event
  | skip (p : Path)
  | skipSymlink (p target : Path)
  | warnSymlink (p : Path)
  | createFolder (g : Path)
  | collisionCheck (dst : Path)
  | createDirAll (d : Path)
  | rename (src dst : Path)
  deriving DecidableEq, Repr

/-- The hard aborts of `import`: the entry assertion, the
`group_dir.parent()` expect, the destination-collision and obstructed-slot
aborts, and the unchecked `to_path.parent()` unwraps. -/
inductive PanicMsg
  | emptyFiles
  | malformedDotfiles
  | destinationExists (dst : Path)
  | obstructed (pd : Path)
  | parentUnwrap
  deriving DecidableEq, Repr

/-- The recoverable errors of `import` (Rust `anyhow::Result` errors),
each naming the paths the corresponding Rust message names. -/
inductive ErrMsg
  | ioCanonicalize (p : Path)
  | outsideHome (home p : Path)
  | createGroupFolder (g : Path)
  | createIntermediate (d : Path)
  | sameFsIo (p pd : Path)
  | crossFs (p pd : Path)
  | moveFailed (src dst : Path)
  deriving DecidableEq, Repr

/-- The result of one `import` invocation: success, an error return, or a panic. -/
inductive Outcome
  | ok
  | error (e : ErrMsg)
  | panic (pm : PanicMsg)
  deriving DecidableEq, Repr

/-- Whether the entry at `p` is itself a symlink, without following it
(Rust `FileType::symlink_read_at(path).is_ok_and(|t| t.is_symlink())`;
a read failure counts as not-a-symlink). -/
def isSymlinkAt (fs : FS) (p : Path) : Bool :=
  match fs p with
  | some (Entry.symlink _) => true
  | _ => false

/-- Canonicalize every input path, failing on the first I/O failure
(Rust `files.iter().map(fs::canonicalize).collect::<io::Result<_>>()`). -/
def mapCanonicalize (env : Env) : List Path → Except ErrMsg (List Path)
  | [] => Except.ok []
  | p :: ps =>
    match env.canonicalize p with
    | none => Except.error (ErrMsg.ioCanonicalize p)
    | some c => (mapCanonicalize env ps).map (c :: ·)

/-- The per-file classification loop of `import`, over pairs of
(canonical path, original path): skip files inside the dotfiles folder,
warn on symlinks, plan a move for files inside the home directory, and
bail on files outside both. -/
def classify (fs0 : FS) (df home g : Path) :
    List (Path × Path) → Except ErrMsg (List FileToMove) × List Event
  | [] => (Except.ok [], [])
  | (abs, p) :: rest =>
    let isSym := isSymlinkAt fs0 p
    match stripPre df abs with
    | some np =>
      let ev := if isSym then Event.skipSymlink p np else Event.skip p
      let res := classify fs0 df home g rest
      (res.1, ev :: res.2)
    | none =>
      let warns := if isSym then [Event.warnSymlink p] else []
      match stripPre home abs with
      | some np =>
        let res := classify fs0 df home g rest
        (res.1.map fun ms => { path := p, to_path := g ++ np } :: ms, warns ++ res.2)
      | none => (Except.error (ErrMsg.outsideHome home p), warns)

/-- Resolution plus classification: canonicalize all inputs, then classify
each against the dotfiles folder and the home directory. -/
def classifyAll (env : Env) (fs0 : FS) (df home g : Path) (files : List Path) :
    Except ErrMsg (List FileToMove) × List Event :=
  match mapCanonicalize env files with
  | Except.error e => (Except.error e, [])
  | Except.ok abs => classify fs0 df home g (abs.zip files)

/-- The destination-collision loop: check each planned destination in
order, aborting at the first one that already exists. -/
def collisionPhase (fs : FS) : List FileToMove → Option Path × List Event
  | [] => (none, [])
  | m :: rest =>
    if (fs m.to_path).isSome then (some m.to_path, [Event.collisionCheck m.to_path])
    else
      let res := collisionPhase fs rest
      (res.1, Event.collisionCheck m.to_path :: res.2)

/-- The intermediate-directory discovery loop: for each planned move,
panic if the destination's parent slot is occupied by a non-directory,
and record the parent when it is missing and is not the group directory. -/
def collectIntermediate (fs : FS) (g : Path) :
    List FileToMove → Except PanicMsg (List Path)
  | [] => Except.ok []
  | m :: rest =>
    match parentPath m.to_path with
    | none => Except.error PanicMsg.parentUnwrap
    | some pd =>
      if (fs pd).isSome then
        if fs pd = some Entry.dir then collectIntermediate fs g rest
        else Except.error (PanicMsg.obstructed pd)
      else if pd = g then collectIntermediate fs g rest
      else (collectIntermediate fs g rest).map (pd :: ·)

/-- The intermediate directories actually created: deduplicated and sorted,
and only when the recorded list is nonempty (as in the source). -/
def dirsPlan (raw : List Path) : List Path :=
  if raw.isEmpty then [] else sortPaths (dedup_nested raw)

/-- Create each planned intermediate directory in order; a failure stops
the loop, keeping the directories already created. -/
def createDirs (fs : FS) : List Path → Except ErrMsg Unit × FS × List Event
  | [] => (Except.ok (), fs, [])
  | d :: ds =>
    match mkdirAll fs d with
    | none => (Except.error (ErrMsg.createIntermediate d), fs, [])
    | some fs2 =>
      let res := createDirs fs2 ds
      (res.1, res.2.1, Event.createDirAll d :: res.2.2)

/-- The same-filesystem gate: for each planned move, check that the source
and the destination's parent are on one filesystem, bailing on the first
pair that is not (or on the first I/O failure of the oracle). -/
def checkSameFs (env : Env) : List FileToMove → Outcome
  | [] => Outcome.ok
  | m :: rest =>
    match parentPath m.to_path with
    | none => Outcome.panic PanicMsg.parentUnwrap
    | some pd =>
      match env.sameFilesystem m.path pd with
      | none => Outcome.error (ErrMsg.sameFsIo m.path pd)
      | some false => Outcome.error (ErrMsg.crossFs m.path pd)
      | some true => checkSameFs env rest

/-- The move loop: rename each planned file in order; a failure stops the
loop, keeping the moves already performed. -/
def doRenames (fs : FS) : List FileToMove → Except ErrMsg Unit × FS × List Event
  | [] => (Except.ok (), fs, [])
  | m :: rest =>
    match renameFs fs m.path m.to_path with
    | none => (Except.error (ErrMsg.moveFailed m.path m.to_path), fs, [])
    | some fs2 =>
      let res := doRenames fs2 rest
      (res.1, res.2.1, Event.rename m.path m.to_path :: res.2.2)

/-- Everything `import` does after classification, in source order: create
the group folder, run the destination-collision checks, discover and create
intermediate directories, run the same-filesystem gate, then move. -/
def runPlanned (env : Env) (fs0 : FS) (g : Path) (moves : List FileToMove)
    (evs1 : List Event) : Outcome × FS × List Event :=
  match create_folder_at fs0 g with
  | none => (Outcome.error (ErrMsg.createGroupFolder g), fs0, evs1)
  | some fs1 =>
    let cp := collisionPhase fs1 moves
    match cp.1 with
    | some dst =>
      (Outcome.panic (PanicMsg.destinationExists dst), fs1,
        evs1 ++ (Event.createFolder g :: cp.2))
    | none =>
      match collectIntermediate fs1 g moves with
      | Except.error pm =>
        (Outcome.panic pm, fs1, evs1 ++ (Event.createFolder g :: cp.2))
      | Except.ok raw =>
        let cd := createDirs fs1 (dirsPlan raw)
        match cd.1 with
        | Except.error e =>
          (Outcome.error e, cd.2.1,
            evs1 ++ (Event.createFolder g :: (cp.2 ++ cd.2.2)))
        | Except.ok _ =>
          match checkSameFs env moves with
          | Outcome.error e =>
            (Outcome.error e, cd.2.1,
              evs1 ++ (Event.createFolder g :: (cp.2 ++ cd.2.2)))
          | Outcome.panic pm =>
            (Outcome.panic pm, cd.2.1,
              evs1 ++ (Event.createFolder g :: (cp.2 ++ cd.2.2)))
          | Outcome.ok =>
            let dr := doRenames cd.2.1 moves
            match dr.1 with
            | Except.error e =>
              (Outcome.error e, dr.2.1,
                evs1 ++ (Event.createFolder g :: (cp.2 ++ cd.2.2 ++ dr.2.2)))
            | Except.ok _ =>
              (Outcome.ok, dr.2.1,
                evs1 ++ (Event.createFolder g :: (cp.2 ++ cd.2.2 ++ dr.2.2)))

/-- The `import` entry point of `src/commands/import.rs`: assert the file
list is nonempty, take the dotfiles folder as `group_dir.parent()`,
canonicalize and classify every input, then run the planned batch. -/
def importCmd (env : Env) (fs0 : FS) (home_dir group_dir : Path)
    (files : List Path) : Outcome × FS × List Event :=
  if files.isEmpty then (Outcome.panic PanicMsg.emptyFiles, fs0, [])
  else
    match parentPath group_dir with
    | none => (Outcome.panic PanicMsg.malformedDotfiles, fs0, [])
    | some df =>
      match classifyAll env fs0 df home_dir group_dir files with
      | (Except.error e, evs) => (Outcome.error e, fs0, evs)
      | (Except.ok moves, evs) => runPlanned env fs0 group_dir moves evs

/-- Two paths are unrelated: neither is a prefix of the other, so the
subtrees below them are disjoint. -/
def noOverlap (a b : Path) : Bool := !isPre a b && !isPre b a

/-- The filesystem right after the idempotent creation of the group folder
(unchanged when that creation fails, since the model makes it atomic). -/
def fsAfterGroup (fs0 : FS) (g : Path) : FS :=
  (create_folder_at fs0 g).getD fs0

/-- Informational report events: skips and symlink warnings. -/
def isReportEv : Event → Bool
  | Event.skip _ => true
  | Event.skipSymlink _ _ => true
  | Event.warnSymlink _ => true
  | _ => false

/-- Directory-creation events, the group folder included. -/
def isDirCreationEv : Event → Bool
  | Event.createFolder _ => true
  | Event.createDirAll _ => true
  | _ => false

/-- Mutations of the execution phases after the collision check:
intermediate-directory creations and renames. -/
def isLateMutationEv : Event → Bool
  | Event.createDirAll _ => true
  | Event.rename _ _ => true
  | _ => false

/-- Destination-collision check events. -/
def isCollisionCheckEv : Event → Bool
  | Event.collisionCheck _ => true
  | _ => false

/-- The intermediate directories created during a run, in creation order. -/
def createdDirs (tr : List Event) : List Path :=
  tr.filterMap fun e =>
    match e with
    | Event.createDirAll d => some d
    | _ => none

/-- The renames performed during a run, in execution order. -/
def renamedPairs (tr : List Event) : List (Path × Path) :=
  tr.filterMap fun e =>
    match e with
    | Event.rename s d => some (s, d)
    | _ => none

/-- Whether, in the trace `tr`, the destination-collision check for `d`
ran before every directory creation (the group folder included): this is
the ordering claim C3 states for each planned move. -/
def checkedBeforeCreation (tr : List Event) (d : Path) : Bool :=
  match tr.findIdx? (fun e => decide (e = Event.collisionCheck d)),
        tr.findIdx? isDirCreationEv with
  | some i, some j => decide (i < j)
  | some _, none => true
  | none, none => true
  | none, some _ => false

/-- Claim C3's per-run property: every planned move's collision check ran
before any directory creation. -/
def claimC3Pred (moves : List FileToMove) (tr : List Event) : Bool :=
  moves.all fun m => checkedBeforeCreation tr m.to_path

/-- Once an intermediate-directory creation or a rename has happened, no
further destination-collision check occurs. -/
def checksPrecedeLateMutations (tr : List Event) : Bool :=
  ((tr.dropWhile fun e => !isLateMutationEv e).filter isCollisionCheckEv).isEmpty

/-- The first (canonical path, original path) pair lying outside both the
dotfiles folder and the home directory, in input order: the file on which
the classification loop bails. -/
def firstOutside (df home : Path) : List (Path × Path) → Option (Path × Path)
  | [] => none
  | (a, p) :: rest =>
    if (stripPre df a).isNone && (stripPre home a).isNone then some (a, p)
    else firstOutside df home rest

/-- Concrete oracle for the witnesses: canonicalization is the identity
and everything is on one filesystem. -/
def exEnv : Env :=
  { canonicalize := fun p => some p, sameFilesystem := fun _ _ => some true }

/-- Concrete oracle for the cross-filesystem witness: canonicalization is
the identity and no two paths are on one filesystem. -/
def exEnvCross : Env :=
  { canonicalize := fun p => some p, sameFilesystem := fun _ _ => some false }

/-- Concrete home directory for the witnesses. -/
def exHome : Path := ["home"]

/-- Concrete group directory (inside the dotfiles folder `dots`) for the
witnesses. -/
def exG : Path := ["dots", "grp"]

/-- Concrete starting filesystem for the witnesses: a home directory with
a regular file `home/a/f`, a symlink `home/s`, a file `home/g2`, and a
file `dots/x` inside the dotfiles folder. -/
def exFs : FS := fun q =>
  if q = ([] : Path) then some Entry.dir
  else if q = (["home"] : Path) then some Entry.dir
  else if q = (["home", "a"] : Path) then some Entry.dir
  else if q = (["home", "a", "f"] : Path) then some (Entry.file "data")
  else if q = (["home", "s"] : Path) then some (Entry.symlink ["home", "a", "f"])
  else if q = (["home", "g2"] : Path) then some (Entry.file "gdata")
  else if q = (["dots"] : Path) then some Entry.dir
  else if q = (["dots", "x"] : Path) then some (Entry.file "xdata")
  else none

/-- Concrete starting filesystem for the collision witness: like `exFs`,
but the destination `dots/grp/a/f` is already occupied. -/
def exFsCollision : FS := fun q =>
  if q = (["dots", "grp"] : Path) then some Entry.dir
  else if q = (["dots", "grp", "a"] : Path) then some Entry.dir
  else if q = (["dots", "grp", "a", "f"] : Path) then some (Entry.file "old")
  else exFs q

/-! ### Path lemmas -/

theorem isPre_append_self (a t : Path) : isPre a (a ++ t) = true := by
  induction a with
  | nil => rfl
  | cons x xs ih => simp [isPre, ih]

theorem drop_len_append (a t : Path) : (a ++ t).drop a.length = t := by
  induction a with
  | nil => rfl
  | cons x xs ih => simp [ih]

theorem isPre_iff {a b : Path} : isPre a b = true ↔ ∃ t, b = a ++ t := by
  induction a generalizing b with
  | nil => simp [isPre]
  | cons x xs ih =>
    cases b with
    | nil => simp [isPre]
    | cons y ys =>
      simp only [isPre, Bool.and_eq_true, decide_eq_true_eq, ih, List.cons_append]
      constructor
      · rintro ⟨rfl, t, rfl⟩
        exact ⟨t, rfl⟩
      · rintro ⟨t, ht⟩
        injection ht with h1 h2
        exact ⟨h1.symm, t, h2⟩

theorem isPre_comparable {a b c : Path} (h1 : isPre a c = true)
    (h2 : isPre b c = true) : isPre a b = true ∨ isPre b a = true := by
  induction a generalizing b c with
  | nil => left; rfl
  | cons x xs ih =>
    cases b with
    | nil => right; rfl
    | cons y ys =>
      cases c with
      | nil => simp [isPre] at h1
      | cons z zs =>
        simp only [isPre, Bool.and_eq_true, decide_eq_true_eq] at h1 h2 ⊢
        obtain ⟨rfl, h1⟩ := h1
        obtain ⟨rfl, h2⟩ := h2
        rcases ih h1 h2 with h | h
        · left; exact ⟨rfl, h⟩
        · right; exact ⟨rfl, h⟩

theorem noOverlap_symm {a b : Path} (h : noOverlap a b = true) :
    noOverlap b a = true := by
  simp only [noOverlap, Bool.and_eq_true, Bool.not_eq_true'] at h ⊢
  exact ⟨h.2, h.1⟩

theorem noOverlap_not_isPre_append {a b : Path} (h : noOverlap a b = true)
    (t : Path) : isPre a (b ++ t) = false := by
  simp only [noOverlap, Bool.and_eq_true, Bool.not_eq_true'] at h
  cases hc : isPre a (b ++ t) with
  | false => rfl
  | true =>
    rcases isPre_comparable hc (isPre_append_self b t) with h1 | h1
    · rw [h.1] at h1; cases h1
    · rw [h.2] at h1; cases h1

theorem stripPre_some {pre p r : Path} (h : stripPre pre p = some r) :
    p = pre ++ r := by
  unfold stripPre at h
  split at h
  · rename_i hp
    injection h with h
    obtain ⟨t, rfl⟩ := isPre_iff.mp hp
    rw [drop_len_append] at h
    rw [h]
  · cases h

theorem stripPre_append (pre t : Path) : stripPre pre (pre ++ t) = some t := by
  simp [stripPre, isPre_append_self, drop_len_append]

theorem parentPath_some_ne_nil {g d : Path} (h : parentPath g = some d) :
    g ≠ [] := by
  intro hg
  subst hg
  simp [parentPath] at h

theorem parentPath_append_isSome {g : Path} (hg : g ≠ []) (r : Path) :
    (parentPath (g ++ r)).isSome = true := by
  unfold parentPath
  have hne : ¬ (g ++ r) = [] := fun hc => hg (List.append_eq_nil.mp hc).1
  simp [List.isEmpty_iff, hne]

/-! ### Directory-creation lemmas -/

theorem foldl_setDir_apply (ps : List Path) (fs : FS) (q : Path) :
    (ps.foldl setDir fs) q = if q ∈ ps then some Entry.dir else fs q := by
  induction ps generalizing fs with
  | nil => simp
  | cons d ds ih =>
    simp only [List.foldl_cons, ih, List.mem_cons]
    by_cases h1 : q ∈ ds
    · simp [h1]
    · by_cases h2 : q = d <;> simp [h1, h2, setDir]

theorem mkdirAll_preserve {fs fs2 : FS} {p : Path} (h : mkdirAll fs p = some fs2)
    {q : Path} {e : Entry} (he : fs q = some e) : fs2 q = some e := by
  unfold mkdirAll at h
  split at h
  · rename_i hall
    injection h with h
    subst h
    rw [foldl_setDir_apply]
    split
    · rename_i hq
      have hfd := List.all_eq_true.mp hall _ hq
      rw [freeOrDir, he] at hfd
      cases e with
      | dir => exact he ▸ rfl
      | file c => simp at hfd
      | symlink t => simp at hfd
    · exact he
  · cases h

theorem create_folder_at_eq {fs0 : FS} {g : Path}
    (h : (create_folder_at fs0 g).isSome = true) :
    create_folder_at fs0 g = some (fsAfterGroup fs0 g) := by
  unfold fsAfterGroup
  cases hc : create_folder_at fs0 g with
  | none => rw [hc] at h; cases h
  | some f => rfl

theorem fsAfterGroup_preserve {fs0 : FS} {g : Path}
    {q : Path} {e : Entry} (he : fs0 q = some e) :
    fsAfterGroup fs0 g q = some e := by
  unfold fsAfterGroup create_folder_at
  cases hc : mkdirAll fs0 g with
  | none => exact he
  | some f => exact mkdirAll_preserve hc he

theorem createDirs_preserve (ds : List Path) (fs : FS) {q : Path} {e : Entry}
    (he : fs q = some e) : (createDirs fs ds).2.1 q = some e := by
  induction ds generalizing fs with
  | nil => exact he
  | cons d ds ih =>
    cases h : mkdirAll fs d with
    | none => simpa [createDirs, h] using he
    | some fs2 => simpa [createDirs, h] using ih fs2 (mkdirAll_preserve h he)

theorem createDirs_ok_events (ds : List Path) (fs : FS)
    (h : (createDirs fs ds).1 = Except.ok ()) :
    (createDirs fs ds).2.2 = ds.map Event.createDirAll := by
  induction ds generalizing fs with
  | nil => simp [createDirs]
  | cons d ds ih =>
    cases hm : mkdirAll fs d with
    | none => simp [createDirs, hm] at h
    | some fs2 =>
      simp only [createDirs, hm, List.map_cons] at h ⊢
      rw [ih fs2 h]

theorem createDirs_events_shape (ds : List Path) (fs : FS) :
    ∀ e ∈ (createDirs fs ds).2.2, ∃ d, e = Event.createDirAll d := by
  induction ds generalizing fs with
  | nil => simp [createDirs]
  | cons d ds ih =>
    cases hm : mkdirAll fs d with
    | none => simp [createDirs, hm]
    | some fs2 =>
      simp only [createDirs, hm, List.mem_cons]
      rintro e (rfl | he)
      · exact ⟨d, rfl⟩
      · exact ih fs2 e he

/-! ### Rename lemmas -/

theorem renameFs_dst {fs fs2 : FS} {s d : Path} (h : renameFs fs s d = some fs2)
    (t : Path) : fs2 (d ++ t) = fs (s ++ t) := by
  unfold renameFs at h
  split at h
  · injection h with h
    subst h
    simp [isPre_append_self, drop_len_append]
  · cases h

theorem renameFs_frame {fs fs2 : FS} {s d : Path} (h : renameFs fs s d = some fs2)
    {q : Path} (h1 : isPre d q = false) (h2 : isPre s q = false) :
    fs2 q = fs q := by
  unfold renameFs at h
  split at h
  · injection h with h
    subst h
    simp [h1, h2]
  · cases h

theorem renameFs_src_gone {fs fs2 : FS} {s d : Path}
    (h : renameFs fs s d = some fs2) (hno : noOverlap s d = true) (t : Path) :
    fs2 (s ++ t) = none := by
  unfold renameFs at h
  split at h
  · injection h with h
    subst h
    have hd : isPre d (s ++ t) = false :=
      noOverlap_not_isPre_append (noOverlap_symm hno) t
    simp [hd, isPre_append_self]
  · cases h

/-! ### Move-loop lemmas -/

theorem doRenames_frame (ms : List FileToMove) (fs : FS) {q : Path}
    (h : ∀ m ∈ ms, isPre m.path q = false ∧ isPre m.to_path q = false) :
    (doRenames fs ms).2.1 q = fs q := by
  induction ms generalizing fs with
  | nil => rfl
  | cons m rest ih =>
    cases hr : renameFs fs m.path m.to_path with
    | none => simp [doRenames, hr]
    | some fs2 =>
      have hm := h m (List.mem_cons_self m rest)
      simp only [doRenames, hr]
      rw [ih fs2 fun m' hm' => h m' (List.mem_cons_of_mem _ hm')]
      exact renameFs_frame hr hm.2 hm.1

theorem doRenames_ok_events (ms : List FileToMove) (fs : FS)
    (h : (doRenames fs ms).1 = Except.ok ()) :
    (doRenames fs ms).2.2 = ms.map fun m => Event.rename m.path m.to_path := by
  induction ms generalizing fs with
  | nil => simp [doRenames]
  | cons m rest ih =>
    cases hr : renameFs fs m.path m.to_path with
    | none => simp [doRenames, hr] at h
    | some fs2 =>
      simp only [doRenames, hr, List.map_cons] at h ⊢
      rw [ih fs2 h]

theorem doRenames_events_shape (ms : List FileToMove) (fs : FS) :
    ∀ e ∈ (doRenames fs ms).2.2, ∃ m ∈ ms, e = Event.rename m.path m.to_path := by
  induction ms generalizing fs with
  | nil => simp [doRenames]
  | cons m rest ih =>
    cases hr : renameFs fs m.path m.to_path with
    | none => simp [doRenames, hr]
    | some fs2 =>
      simp only [doRenames, hr, List.mem_cons]
      rintro e (rfl | he)
      · exact ⟨m, Or.inl rfl, rfl⟩
      · obtain ⟨m', hm', rfl⟩ := ih fs2 e he
        exact ⟨m', Or.inr hm', rfl⟩

theorem doRenames_move_spec (ms : List FileToMove) (fs : FS) (mv : FileToMove)
    (hok : (doRenames fs ms).1 = Except.ok ())
    (hmem : mv ∈ ms) (hcount : ms.count mv = 1)
    (hsep : ∀ m ∈ ms, m ≠ mv →
      noOverlap m.path mv.path = true ∧ noOverlap m.to_path mv.path = true ∧
      noOverlap m.path mv.to_path = true ∧ noOverlap m.to_path mv.to_path = true)
    (hself : noOverlap mv.path mv.to_path = true) :
    (∀ t, (doRenames fs ms).2.1 (mv.to_path ++ t) = fs (mv.path ++ t)) ∧
    (∀ t, (doRenames fs ms).2.1 (mv.path ++ t) = none) := by
  induction ms generalizing fs with
  | nil => cases hmem
  | cons m rest ih =>
    cases hr : renameFs fs m.path m.to_path with
    | none => simp [doRenames, hr] at hok
    | some fs2 =>
      simp only [doRenames, hr] at hok ⊢
      rcases List.mem_cons.mp hmem with rfl | hmv
      · -- the head is the move in question
        have hnotin : mv ∉ rest := by
          rw [List.count_cons_self] at hcount
          exact List.count_eq_zero.mp (by omega)
        have hsep' : ∀ m' ∈ rest, m' ≠ mv := fun m' hm' he => hnotin (he ▸ hm')
        constructor
        · intro t
          have hfr : ∀ m' ∈ rest,
              isPre m'.path (mv.to_path ++ t) = false ∧
              isPre m'.to_path (mv.to_path ++ t) = false := by
            intro m' hm'
            obtain ⟨_, _, h3, h4⟩ :=
              hsep m' (List.mem_cons_of_mem _ hm') (hsep' m' hm')
            exact ⟨noOverlap_not_isPre_append h3 t, noOverlap_not_isPre_append h4 t⟩
          rw [doRenames_frame rest fs2 hfr]
          exact renameFs_dst hr t
        · intro t
          have hfr : ∀ m' ∈ rest,
              isPre m'.path (mv.path ++ t) = false ∧
              isPre m'.to_path (mv.path ++ t) = false := by
            intro m' hm'
            obtain ⟨h1, h2, _, _⟩ :=
              hsep m' (List.mem_cons_of_mem _ hm') (hsep' m' hm')
            exact ⟨noOverlap_not_isPre_append h1 t, noOverlap_not_isPre_append h2 t⟩
          rw [doRenames_frame rest fs2 hfr]
          exact renameFs_src_gone hr hself t
      · -- the move in question lies in the tail
        have hne : m ≠ mv := by
          intro he
          subst he
          rw [List.count_cons_self] at hcount
          have := List.count_pos_iff.mpr hmv
          omega
        have hcount' : rest.count mv = 1 := by
          rw [List.count_cons_of_ne (fun he => hne he.symm)] at hcount
          exact hcount
        have hsep'' : ∀ m' ∈ rest, m' ≠ mv →
            noOverlap m'.path mv.path = true ∧ noOverlap m'.to_path mv.path = true ∧
            noOverlap m'.path mv.to_path = true ∧
            noOverlap m'.to_path mv.to_path = true :=
          fun m' hm' => hsep m' (List.mem_cons_of_mem _ hm')
        obtain ⟨hA, hB⟩ := ih fs2 hok hmv hcount' hsep''
        obtain ⟨h1, h2, h3, h4⟩ := hsep m (List.mem_cons_self m rest) hne
        constructor
        · intro t
          rw [hA t]
          exact renameFs_frame hr (noOverlap_not_isPre_append h2 t)
            (noOverlap_not_isPre_append h1 t)
        · exact hB

/-! ### Resolution and classification lemmas -/

theorem mapCanonicalize_ok_zip {env : Env} {files abs : List Path}
    (h : mapCanonicalize env files = Except.ok abs) :
    ∀ pr ∈ abs.zip files, env.canonicalize pr.2 = some pr.1 := by
  induction files generalizing abs with
  | nil =>
    simp only [mapCanonicalize] at h
    injection h with h
    subst h
    simp
  | cons p ps ih =>
    cases hc : env.canonicalize p with
    | none => simp [mapCanonicalize, hc] at h
    | some c =>
      simp only [mapCanonicalize, hc] at h
      cases hr : mapCanonicalize env ps with
      | error e => rw [hr] at h; simp [Except.map] at h
      | ok abs' =>
        rw [hr] at h
        simp only [Except.map] at h
        injection h with h
        subst h
        intro pr hpr
        rcases List.mem_cons.mp (by simpa [List.zip_cons_cons] using hpr) with rfl | h'
        · exact hc
        · exact ih hr pr h'

theorem mem_zip_of_canonical {env : Env} {files abs : List Path} {p c : Path}
    (h : mapCanonicalize env files = Except.ok abs) (hp : p ∈ files)
    (hc : env.canonicalize p = some c) : (c, p) ∈ abs.zip files := by
  induction files generalizing abs with
  | nil => cases hp
  | cons q ps ih =>
    cases hcq : env.canonicalize q with
    | none => simp [mapCanonicalize, hcq] at h
    | some cq =>
      simp only [mapCanonicalize, hcq] at h
      cases hr : mapCanonicalize env ps with
      | error e => rw [hr] at h; simp [Except.map] at h
      | ok abs' =>
        rw [hr] at h
        simp only [Except.map] at h
        injection h with h
        subst h
        rcases List.mem_cons.mp hp with rfl | hp'
        · rw [hcq] at hc
          injection hc with hc
          subst hc
          simp [List.zip_cons_cons]
        · exact List.mem_cons_of_mem _ (ih hr hp')

theorem classify_ok_sound {fs0 : FS} {df home g : Path}
    {prs : List (Path × Path)} {moves : List FileToMove}
    (h : (classify fs0 df home g prs).1 = Except.ok moves) :
    ∀ m ∈ moves, ∃ a, (a, m.path) ∈ prs ∧ stripPre df a = none ∧
      ∃ r, stripPre home a = some r ∧ m.to_path = g ++ r := by
  induction prs generalizing moves with
  | nil =>
    simp only [classify] at h
    injection h with h
    subst h
    simp
  | cons pr rest ih =>
    obtain ⟨a0, p0⟩ := pr
    cases hdf : stripPre df a0 with
    | some np =>
      simp only [classify, hdf] at h
      intro m hm
      obtain ⟨a, hmem, hrest⟩ := ih h m hm
      exact ⟨a, List.mem_cons_of_mem _ hmem, hrest⟩
    | none =>
      cases hh : stripPre home a0 with
      | some np =>
        simp only [classify, hdf, hh] at h
        cases hr : (classify fs0 df home g rest).1 with
        | error e => rw [hr] at h; simp [Except.map] at h
        | ok ms' =>
          rw [hr] at h
          simp only [Except.map] at h
          injection h with h
          subst h
          intro m hm
          rcases List.mem_cons.mp hm with rfl | hm'
          · exact ⟨a0, List.mem_cons_self _ _, hdf, np, hh, rfl⟩
          · obtain ⟨a, hmem, hrest⟩ := ih hr m hm'
            exact ⟨a, List.mem_cons_of_mem _ hmem, hrest⟩
      | none => simp [classify, hdf, hh] at h

theorem classify_ok_complete {fs0 : FS} {df home g : Path}
    {prs : List (Path × Path)} {moves : List FileToMove} {c p r : Path}
    (h : (classify fs0 df home g prs).1 = Except.ok moves)
    (hmem : (c, p) ∈ prs) (hdfc : stripPre df c = none)
    (hhc : stripPre home c = some r) :
    FileToMove.mk p (g ++ r) ∈ moves := by
  induction prs generalizing moves with
  | nil => cases hmem
  | cons pr rest ih =>
    obtain ⟨a0, p0⟩ := pr
    cases hdf : stripPre df a0 with
    | some np =>
      simp only [classify, hdf] at h
      rcases List.mem_cons.mp hmem with he | hmem'
      · injection he with h1 h2
        subst h1
        rw [hdf] at hdfc
        cases hdfc
      · exact ih h hmem'
    | none =>
      cases hh : stripPre home a0 with
      | some np =>
        simp only [classify, hdf, hh] at h
        cases hr : (classify fs0 df home g rest).1 with
        | error e => rw [hr] at h; simp [Except.map] at h
        | ok ms' =>
          rw [hr] at h
          simp only [Except.map] at h
          injection h with h
          subst h
          rcases List.mem_cons.mp hmem with he | hmem'
          · injection he with h1 h2
            subst h1
            subst h2
            rw [hh] at hhc
            injection hhc with hhc
            subst hhc
            exact List.mem_cons_self _ _
          · exact List.mem_cons_of_mem _ (ih hr hmem')
      | none =>
        rcases List.mem_cons.mp hmem with he | hmem'
        · injection he with h1 h2
          subst h1
          rw [hh] at hhc
          cases hhc
        · simp [classify, hdf, hh] at h

theorem classify_skip_mem {fs0 : FS} {df home g : Path}
    {prs : List (Path × Path)} {moves : List FileToMove} {c p np : Path}
    (h : (classify fs0 df home g prs).1 = Except.ok moves)
    (hmem : (c, p) ∈ prs) (hdfc : stripPre df c = some np) :
    Event.skip p ∈ (classify fs0 df home g prs).2 ∨
      Event.skipSymlink p np ∈ (classify fs0 df home g prs).2 := by
  induction prs generalizing moves with
  | nil => cases hmem
  | cons pr rest ih =>
    obtain ⟨a0, p0⟩ := pr
    cases hdf : stripPre df a0 with
    | some np0 =>
      simp only [classify, hdf]
      rcases List.mem_cons.mp hmem with he | hmem'
      · injection he with h1 h2
        subst h1
        subst h2
        rw [hdf] at hdfc
        injection hdfc with hdfc
        subst hdfc
        cases hsym : isSymlinkAt fs0 p
        · left; simp [hsym]
        · right; simp [hsym]
      · simp only [classify, hdf] at h
        rcases ih h hmem' with h' | h'
        · left; exact List.mem_cons_of_mem _ h'
        · right; exact List.mem_cons_of_mem _ h'
    | none =>
      cases hh : stripPre home a0 with
      | some np0 =>
        simp only [classify, hdf, hh] at h ⊢
        cases hr : (classify fs0 df home g rest).1 with
        | error e => rw [hr] at h; simp [Except.map] at h
        | ok ms' =>
          rcases List.mem_cons.mp hmem with he | hmem'
          · injection he with h1 h2
            subst h1
            rw [hdf] at hdfc
            cases hdfc
          · rcases ih hr hmem' with h' | h'
            · left
              exact List.mem_append_right _ h'
            · right
              exact List.mem_append_right _ h'
      | none =>
        rcases List.mem_cons.mp hmem with he | hmem'
        · injection he with h1 h2
          subst h1
          rw [hdf] at hdfc
          cases hdfc
        · simp [classify, hdf, hh] at h

theorem classify_warn_mem {fs0 : FS} {df home g : Path}
    {prs : List (Path × Path)} {moves : List FileToMove} {c p : Path}
    (h : (classify fs0 df home g prs).1 = Except.ok moves)
    (hmem : (c, p) ∈ prs) (hdfc : stripPre df c = none)
    (hsym : isSymlinkAt fs0 p = true) :
    Event.warnSymlink p ∈ (classify fs0 df home g prs).2 := by
  induction prs generalizing moves with
  | nil => cases hmem
  | cons pr rest ih =>
    obtain ⟨a0, p0⟩ := pr
    cases hdf : stripPre df a0 with
    | some np0 =>
      simp only [classify, hdf] at h ⊢
      rcases List.mem_cons.mp hmem with he | hmem'
      · injection he with h1 h2
        subst h1
        rw [hdf] at hdfc
        cases hdfc
      · exact List.mem_cons_of_mem _ (ih h hmem')
    | none =>
      cases hh : stripPre home a0 with
      | some np0 =>
        simp only [classify, hdf, hh] at h ⊢
        cases hr : (classify fs0 df home g rest).1 with
        | error e => rw [hr] at h; simp [Except.map] at h
        | ok ms' =>
          rcases List.mem_cons.mp hmem with he | hmem'
          · injection he with h1 h2
            subst h1
            subst h2
            rw [hsym]
            exact List.mem_append_left _ (by simp)
          · exact List.mem_append_right _ (ih hr hmem')
      | none => simp [classify, hdf, hh] at h

theorem classify_events_report {fs0 : FS} {df home g : Path}
    (prs : List (Path × Path)) :
    ∀ e ∈ (classify fs0 df home g prs).2, isReportEv e = true := by
  induction prs with
  | nil => simp [classify]
  | cons pr rest ih =>
    obtain ⟨a0, p0⟩ := pr
    cases hdf : stripPre df a0 with
    | some np =>
      simp only [classify, hdf, List.mem_cons]
      rintro e (rfl | he)
      · cases isSymlinkAt fs0 p0 <;> simp [isReportEv]
      · exact ih e he
    | none =>
      cases hh : stripPre home a0 with
      | some np =>
        simp only [classify, hdf, hh]
        intro e he
        rcases List.mem_append.mp he with h' | h'
        · cases hsym : isSymlinkAt fs0 p0 <;> rw [hsym] at h' <;> simp at h'
          subst h'
          simp [isReportEv]
        · exact ih e h'
      | none =>
        simp only [classify, hdf, hh]
        intro e he
        cases hsym : isSymlinkAt fs0 p0 <;> rw [hsym] at he <;> simp at he
        subst he
        simp [isReportEv]

theorem classifyAll_ok_ex {env : Env} {fs0 : FS} {df home g : Path}
    {files : List Path} {moves : List FileToMove}
    (h : (classifyAll env fs0 df home g files).1 = Except.ok moves) :
    ∃ abs, mapCanonicalize env files = Except.ok abs ∧
      (classify fs0 df home g (abs.zip files)).1 = Except.ok moves ∧
      (classify fs0 df home g (abs.zip files)).2 =
        (classifyAll env fs0 df home g files).2 := by
  unfold classifyAll at h
  cases hm : mapCanonicalize env files with
  | error e => rw [hm] at h; simp at h
  | ok abs =>
    rw [hm] at h
    exact ⟨abs, rfl, h, by unfold classifyAll; rw [hm]⟩

/-! ### Collision-phase lemmas -/

theorem collisionPhase_none_events {fs : FS} {ms : List FileToMove}
    (h : (collisionPhase fs ms).1 = none) :
    (collisionPhase fs ms).2 = ms.map fun m => Event.collisionCheck m.to_path := by
  induction ms with
  | nil => rfl
  | cons m rest ih =>
    cases hx : (fs m.to_path).isSome with
    | true => simp [collisionPhase, hx] at h
    | false =>
      simp only [collisionPhase, hx, Bool.false_eq_true, if_false, List.map_cons] at h ⊢
      rw [ih h]

theorem collisionPhase_some_ex {fs : FS} {ms : List FileToMove} {dst : Path}
    (h : (collisionPhase fs ms).1 = some dst) :
    ∃ m ∈ ms, m.to_path = dst ∧ (fs dst).isSome = true := by
  induction ms with
  | nil => simp [collisionPhase] at h
  | cons m rest ih =>
    cases hx : (fs m.to_path).isSome with
    | true =>
      simp only [collisionPhase, hx, if_true] at h
      injection h with h
      subst h
      exact ⟨m, List.mem_cons_self _ _, rfl, hx⟩
    | false =>
      simp only [collisionPhase, hx, Bool.false_eq_true, if_false] at h
      obtain ⟨m', hm', hrest⟩ := ih h
      exact ⟨m', List.mem_cons_of_mem _ hm', hrest⟩

theorem collisionPhase_events_shape (fs : FS) (ms : List FileToMove) :
    ∀ e ∈ (collisionPhase fs ms).2, ∃ d, e = Event.collisionCheck d := by
  induction ms with
  | nil => simp [collisionPhase]
  | cons m rest ih =>
    cases hx : (fs m.to_path).isSome with
    | true =>
      simp only [collisionPhase, hx, if_true]
      intro e he
      simp at he
      exact ⟨m.to_path, he⟩
    | false =>
      simp only [collisionPhase, hx, Bool.false_eq_true, if_false, List.mem_cons]
      rintro e (rfl | he)
      · exact ⟨m.to_path, rfl⟩
      · exact ih e he

/-! ### Intermediate-directory discovery lemmas -/

theorem collect_ok_eq {fs : FS} {g : Path} {ms : List FileToMove}
    {raw : List Path} (h : collectIntermediate fs g ms = Except.ok raw) :
    raw = ms.filterMap fun m =>
      match parentPath m.to_path with
      | none => none
      | some pd =>
        if (fs pd).isSome then none else if pd = g then none else some pd := by
  induction ms generalizing raw with
  | nil =>
    simp only [collectIntermediate] at h
    injection h with h
    subst h
    simp
  | cons m rest ih =>
    cases hp : parentPath m.to_path with
    | none => simp [collectIntermediate, hp] at h
    | some pd =>
      simp only [collectIntermediate, hp] at h
      simp only [List.filterMap_cons, hp]
      by_cases hex : (fs pd).isSome = true
      · rw [if_pos hex] at h
        rw [if_pos hex]
        by_cases hdir : fs pd = some Entry.dir
        · rw [if_pos hdir] at h
          exact ih h
        · rw [if_neg hdir] at h
          cases h
      · rw [if_neg hex] at h
        rw [if_neg hex]
        by_cases hg : pd = g
        · rw [if_pos hg] at h
          rw [if_pos hg]
          exact ih h
        · rw [if_neg hg] at h
          rw [if_neg hg]
          cases hr : collectIntermediate fs g rest with
          | error e => rw [hr] at h; simp [Except.map] at h
          | ok raw' =>
            rw [hr] at h
            simp only [Except.map] at h
            injection h with h
            subst h
            rw [ih hr]

theorem collect_err_shape {fs : FS} {g : Path} {ms : List FileToMove}
    {pm : PanicMsg} (h : collectIntermediate fs g ms = Except.error pm) :
    pm = PanicMsg.parentUnwrap ∨
      ∃ pd, pm = PanicMsg.obstructed pd ∧ (fs pd).isSome = true ∧
        fs pd ≠ some Entry.dir ∧ ∃ m ∈ ms, parentPath m.to_path = some pd := by
  induction ms with
  | nil => simp [collectIntermediate] at h
  | cons m rest ih =>
    cases hp : parentPath m.to_path with
    | none =>
      simp only [collectIntermediate, hp] at h
      injection h with h
      exact Or.inl h.symm
    | some pd =>
      simp only [collectIntermediate, hp] at h
      by_cases hex : (fs pd).isSome = true
      · rw [if_pos hex] at h
        by_cases hdir : fs pd = some Entry.dir
        · rw [if_pos hdir] at h
          rcases ih h with h' | ⟨pd', h1, h2, h3, m', hm', h4⟩
          · exact Or.inl h'
          · exact Or.inr ⟨pd', h1, h2, h3, m', List.mem_cons_of_mem _ hm', h4⟩
        · rw [if_neg hdir] at h
          injection h with h
          exact Or.inr ⟨pd, h.symm, hex, hdir, m, List.mem_cons_self _ _, hp⟩
      · rw [if_neg hex] at h
        by_cases hg : pd = g
        · rw [if_pos hg] at h
          rcases ih h with h' | ⟨pd', h1, h2, h3, m', hm', h4⟩
          · exact Or.inl h'
          · exact Or.inr ⟨pd', h1, h2, h3, m', List.mem_cons_of_mem _ hm', h4⟩
        · rw [if_neg hg] at h
          cases hr : collectIntermediate fs g rest with
          | error e =>
            rw [hr] at h
            simp only [Except.map] at h
            injection h with h
            subst h
            rcases ih hr with h' | ⟨pd', h1, h2, h3, m', hm', h4⟩
            · exact Or.inl h'
            · exact Or.inr ⟨pd', h1, h2, h3, m', List.mem_cons_of_mem _ hm', h4⟩
          | ok raw' => rw [hr] at h; simp [Except.map] at h

theorem collect_no_unwrap {fs : FS} {g : Path} {ms : List FileToMove}
    (hpar : ∀ m ∈ ms, (parentPath m.to_path).isSome = true) :
    collectIntermediate fs g ms ≠ Except.error PanicMsg.parentUnwrap := by
  induction ms with
  | nil => simp [collectIntermediate]
  | cons m rest ih =>
    intro h
    have ih' :=
      ih (fun m' hm' => hpar m' (List.mem_cons_of_mem _ hm'))
    cases hp : parentPath m.to_path with
    | none =>
      have := hpar m (List.mem_cons_self _ _)
      rw [hp] at this
      cases this
    | some pd =>
      simp only [collectIntermediate, hp] at h
      by_cases hex : (fs pd).isSome = true
      · rw [if_pos hex] at h
        by_cases hdir : fs pd = some Entry.dir
        · rw [if_pos hdir] at h
          exact ih' h
        · rw [if_neg hdir] at h
          simp at h
      · rw [if_neg hex] at h
        by_cases hg : pd = g
        · rw [if_pos hg] at h
          exact ih' h
        · rw [if_neg hg] at h
          cases hr : collectIntermediate fs g rest with
          | error e =>
            rw [hr] at h
            simp only [Except.map] at h
            injection h with h
            subst h
            exact ih' hr
          | ok raw' => rw [hr] at h; simp [Except.map] at h

/-! ### Same-filesystem gate lemmas -/

theorem checkSameFs_panic_shape {env : Env} {ms : List FileToMove} {pm : PanicMsg}
    (h : checkSameFs env ms = Outcome.panic pm) : pm = PanicMsg.parentUnwrap := by
  induction ms with
  | nil => simp [checkSameFs] at h
  | cons m rest ih =>
    cases hp : parentPath m.to_path with
    | none =>
      simp only [checkSameFs, hp] at h
      injection h with h
      exact h.symm
    | some pd =>
      cases hsf : env.sameFilesystem m.path pd with
      | none => simp [checkSameFs, hp, hsf] at h
      | some b =>
        cases b with
        | false => simp [checkSameFs, hp, hsf] at h
        | true =>
          simp only [checkSameFs, hp, hsf] at h
          exact ih h

theorem checkSameFs_no_unwrap {env : Env} {ms : List FileToMove}
    (hpar : ∀ m ∈ ms, (parentPath m.to_path).isSome = true) :
    checkSameFs env ms ≠ Outcome.panic PanicMsg.parentUnwrap := by
  induction ms with
  | nil => simp [checkSameFs]
  | cons m rest ih =>
    cases hp : parentPath m.to_path with
    | none =>
      have := hpar m (List.mem_cons_self _ _)
      rw [hp] at this
      cases this
    | some pd =>
      cases hsf : env.sameFilesystem m.path pd with
      | none => simp [checkSameFs, hp, hsf]
      | some b =>
        cases b with
        | false => simp [checkSameFs, hp, hsf]
        | true =>
          simp only [checkSameFs, hp, hsf]
          exact ih fun m' hm' => hpar m' (List.mem_cons_of_mem _ hm')

theorem checkSameFs_crossFs_ex {env : Env} {ms : List FileToMove} {a b : Path}
    (h : checkSameFs env ms = Outcome.error (ErrMsg.crossFs a b)) :
    ∃ m ∈ ms, m.path = a ∧ parentPath m.to_path = some b ∧
      env.sameFilesystem a b = some false := by
  induction ms with
  | nil => simp [checkSameFs] at h
  | cons m rest ih =>
    cases hp : parentPath m.to_path with
    | none => simp [checkSameFs, hp] at h
    | some pd =>
      cases hsf : env.sameFilesystem m.path pd with
      | none => simp [checkSameFs, hp, hsf] at h
      | some bb =>
        cases bb with
        | false =>
          simp only [checkSameFs, hp, hsf] at h
          injection h with h
          injection h with h1 h2
          subst h1
          subst h2
          exact ⟨m, List.mem_cons_self _ _, rfl, hp, hsf⟩
        | true =>
          simp only [checkSameFs, hp, hsf] at h
          obtain ⟨m', hm', hrest⟩ := ih h
          exact ⟨m', List.mem_cons_of_mem _ hm', hrest⟩

/-! ### Sorting and deduplication lemmas -/

theorem pathLe_total (a b : Path) : pathLe a b = true ∨ pathLe b a = true := by
  induction a generalizing b with
  | nil => left; rfl
  | cons x xs ih =>
    cases b with
    | nil => right; rfl
    | cons y ys =>
      rcases lt_trichotomy x y with h | h | h
      · left
        unfold pathLe
        rw [if_pos h]
      · subst h
        rcases ih ys with h2 | h2
        · left
          unfold pathLe
          rw [if_neg (lt_irrefl x), if_neg (lt_irrefl x)]
          exact h2
        · right
          unfold pathLe
          rw [if_neg (lt_irrefl x), if_neg (lt_irrefl x)]
          exact h2
      · right
        unfold pathLe
        rw [if_pos h]

theorem mem_insertSorted {x y : Path} {l : List Path} :
    x ∈ insertSorted y l ↔ x = y ∨ x ∈ l := by
  induction l with
  | nil => simp [insertSorted]
  | cons z zs ih =>
    by_cases h : pathLe y z = true
    · simp only [insertSorted, if_pos h, List.mem_cons]
    · simp only [insertSorted, if_neg h, List.mem_cons, ih]
      tauto

theorem mem_sortPaths {x : Path} {l : List Path} : x ∈ sortPaths l ↔ x ∈ l := by
  induction l with
  | nil => simp [sortPaths]
  | cons y ys ih => simp [sortPaths, mem_insertSorted, ih]

theorem pathsSorted_cons₂ {a b : Path} {t : List Path} (h1 : pathLe a b = true)
    (h2 : pathsSorted (b :: t) = true) : pathsSorted (a :: b :: t) = true := by
  simp [pathsSorted, h1, h2]

theorem pathsSorted_insertSorted {x : Path} {l : List Path}
    (h : pathsSorted l = true) : pathsSorted (insertSorted x l) = true := by
  induction l with
  | nil => rfl
  | cons y ys ih =>
    by_cases hxy : pathLe x y = true
    · simp only [insertSorted, if_pos hxy]
      exact pathsSorted_cons₂ hxy h
    · have hyx : pathLe y x = true := (pathLe_total x y).resolve_left hxy
      simp only [insertSorted, if_neg hxy]
      cases ys with
      | nil => exact pathsSorted_cons₂ hyx rfl
      | cons z zs =>
        have hparts : pathLe y z = true ∧ pathsSorted (z :: zs) = true := by
          simpa [pathsSorted] using h
        have hrec := ih hparts.2
        by_cases hxz : pathLe x z = true
        · simp only [insertSorted, if_pos hxz] at hrec ⊢
          exact pathsSorted_cons₂ hyx hrec
        · simp only [insertSorted, if_neg hxz] at hrec ⊢
          exact pathsSorted_cons₂ hparts.1 hrec

theorem pathsSorted_sortPaths (l : List Path) :
    pathsSorted (sortPaths l) = true := by
  induction l with
  | nil => rfl
  | cons x xs ih => exact pathsSorted_insertSorted ih

theorem dedup_nested_sub {x : Path} {l : List Path} (h : x ∈ dedup_nested l) :
    x ∈ l :=
  (List.mem_filter.mp h).1

theorem dedup_nested_no_ancestor {a b : Path} {l : List Path}
    (ha : a ∈ dedup_nested l) (hb : b ∈ dedup_nested l) (hne : a ≠ b) :
    isPre a b = false := by
  have hbf := (List.mem_filter.mp hb).2
  cases hc : isPre a b with
  | false => rfl
  | true =>
    exfalso
    have hany : l.any (fun a' => decide (a' ≠ b) && isPre a' b) = true :=
      List.any_eq_true.mpr ⟨a, dedup_nested_sub ha, by simp [hne, hc]⟩
    rw [hany] at hbf
    simp at hbf

theorem noNested_dirsPlan (raw : List Path) : noNested (dirsPlan raw) = true := by
  unfold dirsPlan
  by_cases h : raw.isEmpty
  · rw [if_pos h]
    rfl
  · rw [if_neg h]
    unfold noNested
    rw [List.all_eq_true]
    intro d hd
    rw [List.all_eq_true]
    intro a ha
    rw [mem_sortPaths] at hd ha
    by_cases hne : a = d
    · simp [hne]
    · simp [hne, dedup_nested_no_ancestor ha hd hne]

theorem pathsSorted_dirsPlan (raw : List Path) :
    pathsSorted (dirsPlan raw) = true := by
  unfold dirsPlan
  by_cases h : raw.isEmpty
  · rw [if_pos h]
    rfl
  · rw [if_neg h]
    exact pathsSorted_sortPaths _

/-! ### Branch enumeration of the execution pipeline -/

theorem fsAfterGroup_of_some {fs0 : FS} {g : Path} {f : FS}
    (h : create_folder_at fs0 g = some f) : fsAfterGroup fs0 g = f := by
  unfold fsAfterGroup
  rw [h]
  rfl

theorem runPlanned_cases (env : Env) (fs0 : FS) (g : Path)
    (moves : List FileToMove) (evs1 : List Event) :
    (create_folder_at fs0 g = none ∧
      runPlanned env fs0 g moves evs1 =
        (Outcome.error (ErrMsg.createGroupFolder g), fs0, evs1)) ∨
    (∃ fs1, create_folder_at fs0 g = some fs1 ∧
      ((∃ dst, (collisionPhase fs1 moves).1 = some dst ∧
        runPlanned env fs0 g moves evs1 =
          (Outcome.panic (PanicMsg.destinationExists dst), fs1,
            evs1 ++ (Event.createFolder g :: (collisionPhase fs1 moves).2))) ∨
      ((collisionPhase fs1 moves).1 = none ∧
        ((∃ pm, collectIntermediate fs1 g moves = Except.error pm ∧
          runPlanned env fs0 g moves evs1 =
            (Outcome.panic pm, fs1,
              evs1 ++ (Event.createFolder g :: (collisionPhase fs1 moves).2))) ∨
        (∃ raw, collectIntermediate fs1 g moves = Except.ok raw ∧
          ((∃ e, (createDirs fs1 (dirsPlan raw)).1 = Except.error e ∧
            runPlanned env fs0 g moves evs1 =
              (Outcome.error e, (createDirs fs1 (dirsPlan raw)).2.1,
                evs1 ++ (Event.createFolder g :: ((collisionPhase fs1 moves).2 ++
                  (createDirs fs1 (dirsPlan raw)).2.2)))) ∨
          ((createDirs fs1 (dirsPlan raw)).1 = Except.ok () ∧
            ((∃ e, checkSameFs env moves = Outcome.error e ∧
              runPlanned env fs0 g moves evs1 =
                (Outcome.error e, (createDirs fs1 (dirsPlan raw)).2.1,
                  evs1 ++ (Event.createFolder g :: ((collisionPhase fs1 moves).2 ++
                    (createDirs fs1 (dirsPlan raw)).2.2)))) ∨
            (∃ pm, checkSameFs env moves = Outcome.panic pm ∧
              runPlanned env fs0 g moves evs1 =
                (Outcome.panic pm, (createDirs fs1 (dirsPlan raw)).2.1,
                  evs1 ++ (Event.createFolder g :: ((collisionPhase fs1 moves).2 ++
                    (createDirs fs1 (dirsPlan raw)).2.2)))) ∨
            (checkSameFs env moves = Outcome.ok ∧
              ((∃ e,
                (doRenames ((createDirs fs1 (dirsPlan raw)).2.1) moves).1 =
                  Except.error e ∧
                runPlanned env fs0 g moves evs1 =
                  (Outcome.error e,
                    (doRenames ((createDirs fs1 (dirsPlan raw)).2.1) moves).2.1,
                    evs1 ++ (Event.createFolder g :: ((collisionPhase fs1 moves).2 ++
                      (createDirs fs1 (dirsPlan raw)).2.2 ++
                      (doRenames ((createDirs fs1 (dirsPlan raw)).2.1) moves).2.2)))) ∨
              ((doRenames ((createDirs fs1 (dirsPlan raw)).2.1) moves).1 =
                  Except.ok () ∧
                runPlanned env fs0 g moves evs1 =
                  (Outcome.ok,
                    (doRenames ((createDirs fs1 (dirsPlan raw)).2.1) moves).2.1,
                    evs1 ++ (Event.createFolder g :: ((collisionPhase fs1 moves).2 ++
                      (createDirs fs1 (dirsPlan raw)).2.2 ++
                      (doRenames ((createDirs fs1 (dirsPlan raw)).2.1) moves).2.2)))))))))))))) := by
  cases hcf : create_folder_at fs0 g with
  | none => exact Or.inl ⟨rfl, by simp [runPlanned, hcf]⟩
  | some fs1 =>
    refine Or.inr ⟨fs1, rfl, ?_⟩
    cases hcp : (collisionPhase fs1 moves).1 with
    | some dst => exact Or.inl ⟨dst, rfl, by simp [runPlanned, hcf, hcp]⟩
    | none =>
      refine Or.inr ⟨rfl, ?_⟩
      cases hci : collectIntermediate fs1 g moves with
      | error pm => exact Or.inl ⟨pm, rfl, by simp [runPlanned, hcf, hcp, hci]⟩
      | ok raw =>
        refine Or.inr ⟨raw, rfl, ?_⟩
        cases hcd : (createDirs fs1 (dirsPlan raw)).1 with
        | error e => exact Or.inl ⟨e, rfl, by simp [runPlanned, hcf, hcp, hci, hcd]⟩
        | ok u =>
          refine Or.inr ⟨rfl, ?_⟩
          cases hsf : checkSameFs env moves with
          | error e =>
            exact Or.inl ⟨e, rfl, by simp [runPlanned, hcf, hcp, hci, hcd, hsf]⟩
          | panic pm =>
            exact Or.inr (Or.inl ⟨pm, rfl,
              by simp [runPlanned, hcf, hcp, hci, hcd, hsf]⟩)
          | ok =>
            refine Or.inr (Or.inr ⟨rfl, ?_⟩)
            cases hdr : (doRenames ((createDirs fs1 (dirsPlan raw)).2.1) moves).1 with
            | error e =>
              exact Or.inl ⟨e, rfl,
                by simp [runPlanned, hcf, hcp, hci, hcd, hsf, hdr]⟩
            | ok u =>
              exact Or.inr ⟨rfl, by simp [runPlanned, hcf, hcp, hci, hcd, hsf, hdr]⟩

/-! ### Trace bookkeeping lemmas -/

theorem renamedPairs_append (a b : List Event) :
    renamedPairs (a ++ b) = renamedPairs a ++ renamedPairs b :=
  List.filterMap_append a b _

theorem createdDirs_append (a b : List Event) :
    createdDirs (a ++ b) = createdDirs a ++ createdDirs b :=
  List.filterMap_append a b _

theorem renamedPairs_eq_nil {l : List Event}
    (h : ∀ e ∈ l, ∀ s d, e ≠ Event.rename s d) : renamedPairs l = [] := by
  unfold renamedPairs
  rw [List.filterMap_eq_nil_iff]
  intro e he
  cases e <;> first
    | rfl
    | exact absurd rfl (h _ he _ _)

theorem createdDirs_eq_nil {l : List Event}
    (h : ∀ e ∈ l, ∀ d, e ≠ Event.createDirAll d) : createdDirs l = [] := by
  unfold createdDirs
  rw [List.filterMap_eq_nil_iff]
  intro e he
  cases e <;> first
    | rfl
    | exact absurd rfl (h _ he _)

theorem createdDirs_map (ds : List Path) :
    createdDirs (ds.map Event.createDirAll) = ds := by
  induction ds with
  | nil => rfl
  | cons d rest ih =>
    simp only [List.map_cons, createdDirs, List.filterMap_cons] at ih ⊢
    rw [ih]

theorem report_no_rename {e : Event} (h : isReportEv e = true) :
    ∀ s d, e ≠ Event.rename s d := by
  cases e <;> simp [isReportEv] at h ⊢

theorem report_no_dirAll {e : Event} (h : isReportEv e = true) :
    ∀ d, e ≠ Event.createDirAll d := by
  cases e <;> simp [isReportEv] at h ⊢

theorem report_not_late {e : Event} (h : isReportEv e = true) :
    isLateMutationEv e = false := by
  cases e <;> simp [isReportEv, isLateMutationEv] at h ⊢

theorem report_not_check {e : Event} (h : isReportEv e = true) :
    isCollisionCheckEv e = false := by
  cases e <;> simp [isReportEv, isCollisionCheckEv] at h ⊢

theorem mem_renamedPairs_doRenames {fs : FS} {ms : List FileToMove} {s d : Path}
    (h : (s, d) ∈ renamedPairs ((doRenames fs ms).2.2)) :
    FileToMove.mk s d ∈ ms := by
  unfold renamedPairs at h
  obtain ⟨e, he, hfe⟩ := List.mem_filterMap.mp h
  obtain ⟨m, hm, rfl⟩ := doRenames_events_shape ms fs e he
  simp only at hfe
  injection hfe with hfe
  injection hfe with h1 h2
  subst h1
  subst h2
  exact hm

theorem dropWhile_append_of_all {α : Type} (p : α → Bool) {a : List α}
    (b : List α) (h : ∀ x ∈ a, p x = true) :
    (a ++ b).dropWhile p = b.dropWhile p := by
  induction a with
  | nil => rfl
  | cons x xs ih =>
    simp only [List.cons_append, List.dropWhile_cons, h x (List.mem_cons_self _ _),
      if_true]
    exact ih fun y hy => h y (List.mem_cons_of_mem _ hy)

theorem filter_eq_nil_of_false {α : Type} {p : α → Bool} {l : List α}
    (h : ∀ x ∈ l, p x = false) : l.filter p = [] := by
  induction l with
  | nil => rfl
  | cons x xs ih =>
    rw [List.filter_cons, h x (List.mem_cons_self _ _)]
    simp only [Bool.false_eq_true, if_false]
    exact ih fun y hy => h y (List.mem_cons_of_mem _ hy)

theorem checksPrecede_of_shape {a b : List Event}
    (ha : ∀ x ∈ a, isLateMutationEv x = false)
    (hb : ∀ x ∈ b, isCollisionCheckEv x = false) :
    checksPrecedeLateMutations (a ++ b) = true := by
  unfold checksPrecedeLateMutations
  rw [dropWhile_append_of_all _ b (fun x hx => by rw [ha x hx]; rfl)]
  rw [filter_eq_nil_of_false
    (fun x hx => hb x ((List.dropWhile_sublist _).subset hx))]
  rfl

theorem filter_checks_map (ms : List FileToMove) :
    ((ms.map fun m => Event.collisionCheck m.to_path).filter isCollisionCheckEv) =
      ms.map fun m => Event.collisionCheck m.to_path := by
  induction ms with
  | nil => rfl
  | cons m rest ih => simp [isCollisionCheckEv, ih]

theorem any_late_false {l : List Event}
    (h : ∀ x ∈ l, isLateMutationEv x = false) :
    l.any isLateMutationEv = false := by
  induction l with
  | nil => rfl
  | cons x xs ih =>
    simp only [List.any_cons, h x (List.mem_cons_self _ _), Bool.false_or]
    exact ih fun y hy => h y (List.mem_cons_of_mem _ hy)

/-! ### Pipeline corollaries -/

theorem importCmd_eq_runPlanned {env : Env} {fs0 : FS} {home g : Path}
    {files : List Path} {df : Path} {moves : List FileToMove}
    (hne : files ≠ []) (hdf : parentPath g = some df)
    (hcl : (classifyAll env fs0 df home g files).1 = Except.ok moves) :
    importCmd env fs0 home g files =
      runPlanned env fs0 g moves (classifyAll env fs0 df home g files).2 := by
  have hemp : files.isEmpty = false := by
    cases files with
    | nil => exact absurd rfl hne
    | cons a l => rfl
  rcases hca : classifyAll env fs0 df home g files with ⟨res, evs⟩
  rw [hca] at hcl
  have hres : res = Except.ok moves := hcl
  subst hres
  simp [importCmd, hemp, hdf, hca]

theorem runPlanned_mem_evs1 {env : Env} {fs0 : FS} {g : Path}
    {moves : List FileToMove} {evs1 : List Event} {e : Event} (he : e ∈ evs1) :
    e ∈ (runPlanned env fs0 g moves evs1).2.2 := by
  rcases runPlanned_cases env fs0 g moves evs1 with ⟨_, heq⟩ | ⟨fs1, _, hbr⟩
  · rw [heq]; exact he
  · rcases hbr with ⟨dst, _, heq⟩ | ⟨_, hbr⟩
    · rw [heq]; exact List.mem_append_left _ he
    · rcases hbr with ⟨pm, _, heq⟩ | ⟨raw, _, hbr⟩
      · rw [heq]; exact List.mem_append_left _ he
      · rcases hbr with ⟨e', _, heq⟩ | ⟨_, hbr⟩
        · rw [heq]; exact List.mem_append_left _ he
        · rcases hbr with ⟨e', _, heq⟩ | ⟨pm, _, heq⟩ | ⟨_, hbr⟩
          · rw [heq]; exact List.mem_append_left _ he
          · rw [heq]; exact List.mem_append_left _ he
          · rcases hbr with ⟨e', _, heq⟩ | ⟨_, heq⟩
            · rw [heq]; exact List.mem_append_left _ he
            · rw [heq]; exact List.mem_append_left _ he

theorem runPlanned_no_unwrap {env : Env} {fs0 : FS} {g : Path}
    {moves : List FileToMove} {evs1 : List Event}
    (hpar : ∀ m ∈ moves, (parentPath m.to_path).isSome = true) :
    (runPlanned env fs0 g moves evs1).1 ≠ Outcome.panic PanicMsg.parentUnwrap := by
  intro h
  rcases runPlanned_cases env fs0 g moves evs1 with ⟨_, heq⟩ | ⟨fs1, _, hbr⟩
  · rw [heq] at h; simp at h
  · rcases hbr with ⟨dst, _, heq⟩ | ⟨_, hbr⟩
    · rw [heq] at h; simp at h
    · rcases hbr with ⟨pm, hci, heq⟩ | ⟨raw, _, hbr⟩
      · rw [heq] at h
        simp only [Outcome.panic.injEq] at h
        subst h
        exact collect_no_unwrap hpar hci
      · rcases hbr with ⟨e', _, heq⟩ | ⟨_, hbr⟩
        · rw [heq] at h; simp at h
        · rcases hbr with ⟨e', _, heq⟩ | ⟨pm, hsf, heq⟩ | ⟨_, hbr⟩
          · rw [heq] at h; simp at h
          · rw [heq] at h
            simp only [Outcome.panic.injEq] at h
            subst h
            exact checkSameFs_no_unwrap hpar hsf
          · rcases hbr with ⟨e', _, heq⟩ | ⟨_, heq⟩
            · rw [heq] at h; simp at h
            · rw [heq] at h; simp at h

theorem runPlanned_ok_ex {env : Env} {fs0 : FS} {g : Path}
    {moves : List FileToMove} {evs1 : List Event}
    (h : (runPlanned env fs0 g moves evs1).1 = Outcome.ok) :
    ∃ fs1, create_folder_at fs0 g = some fs1 ∧
      (collisionPhase fs1 moves).1 = none ∧
      ∃ raw, collectIntermediate fs1 g moves = Except.ok raw ∧
        (createDirs fs1 (dirsPlan raw)).1 = Except.ok () ∧
        checkSameFs env moves = Outcome.ok ∧
        (doRenames ((createDirs fs1 (dirsPlan raw)).2.1) moves).1 = Except.ok () ∧
        runPlanned env fs0 g moves evs1 =
          (Outcome.ok, (doRenames ((createDirs fs1 (dirsPlan raw)).2.1) moves).2.1,
            evs1 ++ (Event.createFolder g :: ((collisionPhase fs1 moves).2 ++
              (createDirs fs1 (dirsPlan raw)).2.2 ++
              (doRenames ((createDirs fs1 (dirsPlan raw)).2.1) moves).2.2))) := by
  rcases runPlanned_cases env fs0 g moves evs1 with ⟨_, heq⟩ | ⟨fs1, hcf, hbr⟩
  · rw [heq] at h; simp at h
  · rcases hbr with ⟨dst, _, heq⟩ | ⟨hcp, hbr⟩
    · rw [heq] at h; simp at h
    · rcases hbr with ⟨pm, _, heq⟩ | ⟨raw, hci, hbr⟩
      · rw [heq] at h; simp at h
      · rcases hbr with ⟨e', _, heq⟩ | ⟨hcd, hbr⟩
        · rw [heq] at h; simp at h
        · rcases hbr with ⟨e', _, heq⟩ | ⟨pm, _, heq⟩ | ⟨hsf, hbr⟩
          · rw [heq] at h; simp at h
          · rw [heq] at h; simp at h
          · rcases hbr with ⟨e', _, heq⟩ | ⟨hdr, heq⟩
            · rw [heq] at h; simp at h
            · exact ⟨fs1, hcf, hcp, raw, hci, hcd, hsf, hdr, heq⟩

theorem create_folder_preserve {fs0 f : FS} {g : Path}
    (h : create_folder_at fs0 g = some f) {q : Path} {e : Entry}
    (he : fs0 q = some e) : f q = some e :=
  mkdirAll_preserve h he

theorem renamedPairs_cons_createFolder (g : Path) (l : List Event) :
    renamedPairs (Event.createFolder g :: l) = renamedPairs l := by
  simp [renamedPairs]

theorem createdDirs_cons_createFolder (g : Path) (l : List Event) :
    createdDirs (Event.createFolder g :: l) = createdDirs l := by
  simp [createdDirs]

theorem renamedPairs_collision_nil (fs : FS) (ms : List FileToMove) :
    renamedPairs ((collisionPhase fs ms).2) = [] :=
  renamedPairs_eq_nil fun e he s d => by
    obtain ⟨d', rfl⟩ := collisionPhase_events_shape fs ms e he
    simp

theorem renamedPairs_createDirs_nil (fs : FS) (ds : List Path) :
    renamedPairs ((createDirs fs ds).2.2) = [] :=
  renamedPairs_eq_nil fun e he s d => by
    obtain ⟨d', rfl⟩ := createDirs_events_shape ds fs e he
    simp

theorem createdDirs_collision_nil (fs : FS) (ms : List FileToMove) :
    createdDirs ((collisionPhase fs ms).2) = [] :=
  createdDirs_eq_nil fun e he d => by
    obtain ⟨d', rfl⟩ := collisionPhase_events_shape fs ms e he
    simp

theorem createdDirs_doRenames_nil (fs : FS) (ms : List FileToMove) :
    createdDirs ((doRenames fs ms).2.2) = [] :=
  createdDirs_eq_nil fun e he d => by
    obtain ⟨m, hm, rfl⟩ := doRenames_events_shape ms fs e he
    simp

theorem createdDirs_report_nil {l : List Event}
    (h : ∀ e ∈ l, isReportEv e = true) : createdDirs l = [] :=
  createdDirs_eq_nil fun e he => report_no_dirAll (h e he)

theorem renamedPairs_report_nil {l : List Event}
    (h : ∀ e ∈ l, isReportEv e = true) : renamedPairs l = [] :=
  renamedPairs_eq_nil fun e he => report_no_rename (h e he)

theorem runPlanned_renames_sub {env : Env} {fs0 : FS} {g : Path}
    {moves : List FileToMove} {evs1 : List Event}
    (hrep : ∀ e ∈ evs1, isReportEv e = true) {s d : Path}
    (h : (s, d) ∈ renamedPairs ((runPlanned env fs0 g moves evs1).2.2)) :
    FileToMove.mk s d ∈ moves := by
  have hnil1 : renamedPairs evs1 = [] := renamedPairs_report_nil hrep
  rcases runPlanned_cases env fs0 g moves evs1 with ⟨_, heq⟩ | ⟨fs1, _, hbr⟩
  · rw [heq] at h
    simp only at h
    rw [hnil1] at h
    cases h
  · rcases hbr with ⟨dst, _, heq⟩ | ⟨_, hbr⟩
    · rw [heq] at h
      simp only at h
      rw [renamedPairs_append, hnil1, renamedPairs_cons_createFolder,
        renamedPairs_collision_nil] at h
      cases h
    · rcases hbr with ⟨pm, _, heq⟩ | ⟨raw, _, hbr⟩
      · rw [heq] at h
        simp only at h
        rw [renamedPairs_append, hnil1, renamedPairs_cons_createFolder,
          renamedPairs_collision_nil] at h
        cases h
      · rcases hbr with ⟨e', _, heq⟩ | ⟨_, hbr⟩
        · rw [heq] at h
          simp only at h
          rw [renamedPairs_append, hnil1, renamedPairs_cons_createFolder,
            renamedPairs_append, renamedPairs_collision_nil,
            renamedPairs_createDirs_nil] at h
          cases h
        · rcases hbr with ⟨e', _, heq⟩ | ⟨pm, _, heq⟩ | ⟨_, hbr⟩
          · rw [heq] at h
            simp only at h
            rw [renamedPairs_append, hnil1, renamedPairs_cons_createFolder,
              renamedPairs_append, renamedPairs_collision_nil,
              renamedPairs_createDirs_nil] at h
            cases h
          · rw [heq] at h
            simp only at h
            rw [renamedPairs_append, hnil1, renamedPairs_cons_createFolder,
              renamedPairs_append, renamedPairs_collision_nil,
              renamedPairs_createDirs_nil] at h
            cases h
          · rcases hbr with ⟨e', _, heq⟩ | ⟨_, heq⟩ <;>
              · rw [heq] at h
                simp only at h
                rw [renamedPairs_append, hnil1, renamedPairs_cons_createFolder,
                  renamedPairs_append, renamedPairs_append,
                  renamedPairs_collision_nil, renamedPairs_createDirs_nil] at h
                simp only [List.nil_append, List.append_nil] at h
                exact mem_renamedPairs_doRenames h

theorem runPlanned_fs_preserve {env : Env} {fs0 : FS} {g : Path}
    {moves : List FileToMove} {evs1 : List Event} {q : Path} {e : Entry}
    (hsep : ∀ m ∈ moves, isPre m.path q = false ∧ isPre m.to_path q = false)
    (he : fs0 q = some e) :
    (runPlanned env fs0 g moves evs1).2.1 q = some e := by
  rcases runPlanned_cases env fs0 g moves evs1 with ⟨_, heq⟩ | ⟨fs1, hcf, hbr⟩
  · rw [heq]; exact he
  · have he1 : fs1 q = some e := create_folder_preserve hcf he
    rcases hbr with ⟨dst, _, heq⟩ | ⟨_, hbr⟩
    · rw [heq]; exact he1
    · rcases hbr with ⟨pm, _, heq⟩ | ⟨raw, _, hbr⟩
      · rw [heq]; exact he1
      · have he2 := createDirs_preserve (dirsPlan raw) fs1 he1
        rcases hbr with ⟨e', _, heq⟩ | ⟨_, hbr⟩
        · rw [heq]; exact he2
        · rcases hbr with ⟨e', _, heq⟩ | ⟨pm, _, heq⟩ | ⟨_, hbr⟩
          · rw [heq]; exact he2
          · rw [heq]; exact he2
          · rcases hbr with ⟨e', _, heq⟩ | ⟨_, heq⟩ <;>
              · rw [heq]
                show (doRenames ((createDirs fs1 (dirsPlan raw)).2.1) moves).2.1 q =
                  some e
                rw [doRenames_frame moves _ hsep]
                exact he2

theorem checksPrecede_all_notlate {l : List Event}
    (h : ∀ x ∈ l, isLateMutationEv x = false) :
    checksPrecedeLateMutations l = true := by
  have h2 : checksPrecedeLateMutations (l ++ []) = true :=
    checksPrecede_of_shape h fun x hx => absurd hx (List.not_mem_nil x)
  rwa [List.append_nil] at h2

theorem classifyAll_events_report (env : Env) (fs0 : FS) (df home g : Path)
    (files : List Path) :
    ∀ e ∈ (classifyAll env fs0 df home g files).2, isReportEv e = true := by
  unfold classifyAll
  cases hm : mapCanonicalize env files with
  | error e => simp
  | ok abs => exact classify_events_report (abs.zip files)

theorem runPlanned_checksPrecede {env : Env} {fs0 : FS} {g : Path}
    {moves : List FileToMove} {evs1 : List Event}
    (hrep : ∀ e ∈ evs1, isReportEv e = true) :
    checksPrecedeLateMutations ((runPlanned env fs0 g moves evs1).2.2) = true := by
  have hA : ∀ fs1, ∀ x ∈ evs1 ++
      (Event.createFolder g :: (collisionPhase fs1 moves).2),
      isLateMutationEv x = false := by
    intro fs1 x hx
    rcases List.mem_append.mp hx with h' | h'
    · exact report_not_late (hrep x h')
    · rcases List.mem_cons.mp h' with rfl | h''
      · rfl
      · obtain ⟨d', rfl⟩ := collisionPhase_events_shape fs1 moves x h''
        rfl
  rcases runPlanned_cases env fs0 g moves evs1 with ⟨_, heq⟩ | ⟨fs1, _, hbr⟩
  · rw [heq]
    exact checksPrecede_all_notlate fun x hx => report_not_late (hrep x hx)
  · rcases hbr with ⟨dst, _, heq⟩ | ⟨_, hbr⟩
    · rw [heq]
      exact checksPrecede_all_notlate (hA fs1)
    · rcases hbr with ⟨pm, _, heq⟩ | ⟨raw, _, hbr⟩
      · rw [heq]
        exact checksPrecede_all_notlate (hA fs1)
      · have hgroup2 : ∀ Y : List Event,
            evs1 ++ (Event.createFolder g :: ((collisionPhase fs1 moves).2 ++ Y)) =
            (evs1 ++ (Event.createFolder g :: (collisionPhase fs1 moves).2)) ++ Y := by
          intro Y
          rw [List.append_assoc, List.cons_append]
        have hdirs : ∀ x ∈ (createDirs fs1 (dirsPlan raw)).2.2,
            isCollisionCheckEv x = false := by
          intro x hx
          obtain ⟨d', rfl⟩ := createDirs_events_shape (dirsPlan raw) fs1 x hx
          rfl
        rcases hbr with ⟨e', _, heq⟩ | ⟨_, hbr⟩
        · rw [heq]
          show checksPrecedeLateMutations (evs1 ++ (Event.createFolder g ::
            ((collisionPhase fs1 moves).2 ++ (createDirs fs1 (dirsPlan raw)).2.2))) = true
          rw [hgroup2]
          exact checksPrecede_of_shape (hA fs1) hdirs
        · have hthree : ∀ x ∈ (createDirs fs1 (dirsPlan raw)).2.2 ++
              (doRenames ((createDirs fs1 (dirsPlan raw)).2.1) moves).2.2,
              isCollisionCheckEv x = false := by
            intro x hx
            rcases List.mem_append.mp hx with h' | h'
            · exact hdirs x h'
            · obtain ⟨m, hm, rfl⟩ :=
                doRenames_events_shape moves ((createDirs fs1 (dirsPlan raw)).2.1) x h'
              rfl
          rcases hbr with ⟨e', _, heq⟩ | ⟨pm, _, heq⟩ | ⟨_, hbr⟩
          · rw [heq]
            rw [hgroup2]
            exact checksPrecede_of_shape (hA fs1) hdirs
          · rw [heq]
            rw [hgroup2]
            exact checksPrecede_of_shape (hA fs1) hdirs
          · rcases hbr with ⟨e', _, heq⟩ | ⟨_, heq⟩ <;>
              · rw [heq]
                show checksPrecedeLateMutations (evs1 ++ (Event.createFolder g ::
                  ((collisionPhase fs1 moves).2 ++ (createDirs fs1 (dirsPlan raw)).2.2 ++
                    (doRenames ((createDirs fs1 (dirsPlan raw)).2.1) moves).2.2))) = true
                rw [List.append_assoc ((collisionPhase fs1 moves).2), hgroup2]
                exact checksPrecede_of_shape (hA fs1) hthree

theorem classify_error_first {fs0 : FS} {df home g : Path}
    {prs : List (Path × Path)} {c p : Path}
    (hfind : firstOutside df home prs = some (c, p)) :
    (classify fs0 df home g prs).1 = Except.error (ErrMsg.outsideHome home p) := by
  induction prs with
  | nil => simp [firstOutside] at hfind
  | cons pr rest ih =>
    obtain ⟨a0, p0⟩ := pr
    simp only [firstOutside] at hfind
    by_cases hpred : ((stripPre df a0).isNone && (stripPre home a0).isNone) = true
    · rw [if_pos hpred] at hfind
      injection hfind with hfind
      injection hfind with h1 h2
      subst h1
      subst h2
      rw [Bool.and_eq_true, Option.isNone_iff_eq_none, Option.isNone_iff_eq_none]
        at hpred
      simp [classify, hpred.1, hpred.2]
    · rw [if_neg hpred] at hfind
      have hres := ih hfind
      cases hdf : stripPre df a0 with
      | some np => simpa [classify, hdf] using hres
      | none =>
        cases hh : stripPre home a0 with
        | some np =>
          simp only [classify, hdf, hh]
          rw [hres]
          rfl
        | none =>
          exfalso
          apply hpred
          rw [hdf, hh]
          rfl

theorem importCmd_malformed {env : Env} {fs0 : FS} {home g : Path}
    {files : List Path} (hne : files ≠ []) (hdf : parentPath g = none) :
    importCmd env fs0 home g files =
      (Outcome.panic PanicMsg.malformedDotfiles, fs0, []) := by
  have hemp : files.isEmpty = false := by
    cases files with
    | nil => exact absurd rfl hne
    | cons a l => rfl
  simp [importCmd, hemp, hdf]

theorem importCmd_classify_error {env : Env} {fs0 : FS} {home g : Path}
    {files : List Path} {df : Path} {msg : ErrMsg}
    (hne : files ≠ []) (hdf : parentPath g = some df)
    (hcl : (classifyAll env fs0 df home g files).1 = Except.error msg) :
    importCmd env fs0 home g files =
      (Outcome.error msg, fs0, (classifyAll env fs0 df home g files).2) := by
  have hemp : files.isEmpty = false := by
    cases files with
    | nil => exact absurd rfl hne
    | cons a l => rfl
  rcases hca : classifyAll env fs0 df home g files with ⟨res, evs⟩
  rw [hca] at hcl
  have hres : res = Except.error msg := hcl
  subst hres
  simp [importCmd, hemp, hdf, hca]

/-! ### Claims -/

/-- C9: calling import with an empty files list triggers the entry
assertion (a panic), not an error return or a successful no-op; for every
nonempty files list this assertion never fires. -/
theorem C9_empty_assert (env : Env) (fs0 : FS) (home g : Path) :
    importCmd env fs0 home g [] = (Outcome.panic PanicMsg.emptyFiles, fs0, []) ∧
    ∀ files : List Path, files ≠ [] →
      (importCmd env fs0 home g files).1 ≠ Outcome.panic PanicMsg.emptyFiles := by
  constructor
  · rfl
  · intro files hne h
    cases hdf : parentPath g with
    | none =>
      rw [importCmd_malformed hne hdf] at h
      simp at h
    | some df =>
      rcases hca : classifyAll env fs0 df home g files with ⟨res, evs⟩
      cases res with
      | error e =>
        have hclE : (classifyAll env fs0 df home g files).1 = Except.error e := by
          rw [hca]
        rw [importCmd_classify_error hne hdf hclE] at h
        simp at h
      | ok moves =>
        have hclO : (classifyAll env fs0 df home g files).1 = Except.ok moves := by
          rw [hca]
        rw [importCmd_eq_runPlanned hne hdf hclO] at h
        rcases runPlanned_cases env fs0 g moves
            (classifyAll env fs0 df home g files).2 with ⟨_, heq⟩ | ⟨fs1, _, hbr⟩
        · rw [heq] at h; simp at h
        · rcases hbr with ⟨dst, _, heq⟩ | ⟨_, hbr⟩
          · rw [heq] at h; simp at h
          · rcases hbr with ⟨pm, hci, heq⟩ | ⟨raw, _, hbr⟩
            · rw [heq] at h
              simp only [Outcome.panic.injEq] at h
              subst h
              rcases collect_err_shape hci with h' | ⟨pd, h', _⟩ <;> cases h'
            · rcases hbr with ⟨e', _, heq⟩ | ⟨_, hbr⟩
              · rw [heq] at h; simp at h
              · rcases hbr with ⟨e', _, heq⟩ | ⟨pm, hsf, heq⟩ | ⟨_, hbr⟩
                · rw [heq] at h; simp at h
                · rw [heq] at h
                  simp only [Outcome.panic.injEq] at h
                  subst h
                  cases checkSameFs_panic_shape hsf
                · rcases hbr with ⟨e', _, heq⟩ | ⟨_, heq⟩ <;>
                    (rw [heq] at h; simp at h)

/-- C9 witness: the empty list panics with the entry assertion, and a
concrete nonempty list does not. -/
theorem C9_empty_assert_witness :
    importCmd exEnv exFs exHome exG [] =
      (Outcome.panic PanicMsg.emptyFiles, exFs, []) ∧
    (importCmd exEnv exFs exHome exG [["home", "a", "f"]]).1 ≠
      Outcome.panic PanicMsg.emptyFiles :=
  ⟨(C9_empty_assert exEnv exFs exHome exG).1,
   (C9_empty_assert exEnv exFs exHome exG).2 [["home", "a", "f"]] (by decide)⟩

/-- C10: under the entry precondition that group_dir has a parent, every
planned destination also has a parent, so the unchecked parent() unwraps
of the obstruction check and the same-filesystem check never panic. -/
theorem C10_parent_unwraps_safe (env : Env) (fs0 : FS) (home g : Path)
    (files : List Path) (df : Path) (moves : List FileToMove)
    (hdf : parentPath g = some df)
    (hcl : (classifyAll env fs0 df home g files).1 = Except.ok moves) :
    (∀ m ∈ moves, (parentPath m.to_path).isSome = true) ∧
    (importCmd env fs0 home g files).1 ≠ Outcome.panic PanicMsg.parentUnwrap := by
  have hgne : g ≠ [] := parentPath_some_ne_nil hdf
  have hpar : ∀ m ∈ moves, (parentPath m.to_path).isSome = true := by
    intro m hm
    obtain ⟨abs, hmc, hclz, _⟩ := classifyAll_ok_ex hcl
    obtain ⟨a, hmem, hdfn, r, hhr, hto⟩ := classify_ok_sound hclz m hm
    rw [hto]
    exact parentPath_append_isSome hgne r
  refine ⟨hpar, ?_⟩
  by_cases hne : files = []
  · subst hne
    intro h
    simp [importCmd] at h
  · rw [importCmd_eq_runPlanned hne hdf hcl]
    exact runPlanned_no_unwrap hpar

/-- C10 witness at a concrete run: the single planned destination has a
parent and the run does not hit an unwrap panic. -/
theorem C10_parent_unwraps_safe_witness :
    (∀ m ∈ [FileToMove.mk ["home", "a", "f"] ["dots", "grp", "a", "f"]],
      (parentPath m.to_path).isSome = true) ∧
    (importCmd exEnv exFs exHome exG [["home", "a", "f"]]).1 ≠
      Outcome.panic PanicMsg.parentUnwrap :=
  C10_parent_unwraps_safe exEnv exFs exHome exG [["home", "a", "f"]] ["dots"]
    [FileToMove.mk ["home", "a", "f"] ["dots", "grp", "a", "f"]]
    (by decide) (by decide)

/-- C2: when resolution succeeds and some file's canonical path lies
outside both the dotfiles folder and home_dir, the batch fails with an
error naming the (first) offending path and the required home directory,
the filesystem is unchanged, and the trace holds only report events (no
directory creation, no move). -/
theorem C2_outside_home_aborts (env : Env) (fs0 : FS) (home g : Path)
    (files : List Path) (df : Path) (abs : List Path) (c p : Path)
    (hne : files ≠ []) (hdf : parentPath g = some df)
    (habs : mapCanonicalize env files = Except.ok abs)
    (hfind : firstOutside df home (abs.zip files) = some (c, p)) :
    (importCmd env fs0 home g files).1 =
      Outcome.error (ErrMsg.outsideHome home p) ∧
    (importCmd env fs0 home g files).2.1 = fs0 ∧
    ∀ e ∈ (importCmd env fs0 home g files).2.2, isReportEv e = true := by
  have hcls : (classifyAll env fs0 df home g files).1 =
      Except.error (ErrMsg.outsideHome home p) := by
    unfold classifyAll
    rw [habs]
    exact classify_error_first hfind
  rw [importCmd_classify_error hne hdf hcls]
  exact ⟨rfl, rfl, classifyAll_events_report env fs0 df home g files⟩

/-- C2 witness at a concrete batch whose second file is outside home. -/
theorem C2_outside_home_aborts_witness :
    (importCmd exEnv exFs exHome exG
      [["home", "a", "f"], ["elsewhere", "z"]]).1 =
      Outcome.error (ErrMsg.outsideHome ["home"] ["elsewhere", "z"]) ∧
    (importCmd exEnv exFs exHome exG
      [["home", "a", "f"], ["elsewhere", "z"]]).2.1 = exFs := by
  have h := C2_outside_home_aborts exEnv exFs exHome exG
    [["home", "a", "f"], ["elsewhere", "z"]] ["dots"]
    [["home", "a", "f"], ["elsewhere", "z"]]
    ["elsewhere", "z"] ["elsewhere", "z"]
    (by decide) (by decide) (by decide) (by decide)
  exact ⟨h.1, h.2.1⟩

/-- C4: when some planned destination already exists after the group
folder has been created, the batch panics naming that destination; no
rename and no intermediate-directory creation takes place, and the
filesystem stays as it was right after the group folder creation. -/
theorem C4_collision_aborts (env : Env) (fs0 : FS) (home g : Path)
    (files : List Path) (df : Path) (moves : List FileToMove) (dst : Path)
    (hne : files ≠ []) (hdf : parentPath g = some df)
    (hcl : (classifyAll env fs0 df home g files).1 = Except.ok moves)
    (hcf : (create_folder_at fs0 g).isSome = true)
    (hcol : (collisionPhase (fsAfterGroup fs0 g) moves).1 = some dst) :
    (importCmd env fs0 home g files).1 =
      Outcome.panic (PanicMsg.destinationExists dst) ∧
    (∃ m ∈ moves, m.to_path = dst ∧ ((fsAfterGroup fs0 g) dst).isSome = true) ∧
    renamedPairs ((importCmd env fs0 home g files).2.2) = [] ∧
    createdDirs ((importCmd env fs0 home g files).2.2) = [] ∧
    (importCmd env fs0 home g files).2.1 = fsAfterGroup fs0 g := by
  have hcfe := create_folder_at_eq hcf
  rw [importCmd_eq_runPlanned hne hdf hcl]
  have hrp : runPlanned env fs0 g moves (classifyAll env fs0 df home g files).2 =
      (Outcome.panic (PanicMsg.destinationExists dst), fsAfterGroup fs0 g,
        (classifyAll env fs0 df home g files).2 ++ (Event.createFolder g ::
          (collisionPhase (fsAfterGroup fs0 g) moves).2)) := by
    simp [runPlanned, hcfe, hcol]
  rw [hrp]
  refine ⟨rfl, collisionPhase_some_ex hcol, ?_, ?_, rfl⟩
  · show renamedPairs ((classifyAll env fs0 df home g files).2 ++
      (Event.createFolder g :: (collisionPhase (fsAfterGroup fs0 g) moves).2)) = []
    rw [renamedPairs_append,
      renamedPairs_report_nil (classifyAll_events_report env fs0 df home g files),
      renamedPairs_cons_createFolder, renamedPairs_collision_nil]
    rfl
  · show createdDirs ((classifyAll env fs0 df home g files).2 ++
      (Event.createFolder g :: (collisionPhase (fsAfterGroup fs0 g) moves).2)) = []
    rw [createdDirs_append,
      createdDirs_report_nil (classifyAll_events_report env fs0 df home g files),
      createdDirs_cons_createFolder, createdDirs_collision_nil]
    rfl

/-- C4 witness: a run whose planned destination is already occupied. -/
theorem C4_collision_aborts_witness :
    (importCmd exEnv exFsCollision exHome exG [["home", "a", "f"]]).1 =
      Outcome.panic (PanicMsg.destinationExists ["dots", "grp", "a", "f"]) ∧
    renamedPairs
      ((importCmd exEnv exFsCollision exHome exG [["home", "a", "f"]]).2.2) = [] := by
  have h := C4_collision_aborts exEnv exFsCollision exHome exG
    [["home", "a", "f"]] ["dots"]
    [FileToMove.mk ["home", "a", "f"] ["dots", "grp", "a", "f"]]
    ["dots", "grp", "a", "f"]
    (by decide) (by decide) (by decide) (by decide) (by decide)
  exact ⟨h.1, h.2.2.1⟩

/-- C8: when the same-filesystem gate fails for some planned move, the
batch aborts with an error naming the move's source and the destination's
parent, before any rename: no rename event occurs, and the filesystem
stays as it was after directory creation. -/
theorem C8_cross_filesystem_aborts (env : Env) (fs0 : FS) (home g : Path)
    (files : List Path) (df : Path) (moves : List FileToMove)
    (raw : List Path) (a b : Path)
    (hne : files ≠ []) (hdf : parentPath g = some df)
    (hcl : (classifyAll env fs0 df home g files).1 = Except.ok moves)
    (hcf : (create_folder_at fs0 g).isSome = true)
    (hcol : (collisionPhase (fsAfterGroup fs0 g) moves).1 = none)
    (hci : collectIntermediate (fsAfterGroup fs0 g) g moves = Except.ok raw)
    (hcd : (createDirs (fsAfterGroup fs0 g) (dirsPlan raw)).1 = Except.ok ())
    (hsf : checkSameFs env moves = Outcome.error (ErrMsg.crossFs a b)) :
    (importCmd env fs0 home g files).1 = Outcome.error (ErrMsg.crossFs a b) ∧
    (∃ m ∈ moves, m.path = a ∧ parentPath m.to_path = some b ∧
      env.sameFilesystem a b = some false) ∧
    renamedPairs ((importCmd env fs0 home g files).2.2) = [] ∧
    (importCmd env fs0 home g files).2.1 =
      (createDirs (fsAfterGroup fs0 g) (dirsPlan raw)).2.1 := by
  have hcfe := create_folder_at_eq hcf
  rw [importCmd_eq_runPlanned hne hdf hcl]
  have hrp : runPlanned env fs0 g moves (classifyAll env fs0 df home g files).2 =
      (Outcome.error (ErrMsg.crossFs a b),
        (createDirs (fsAfterGroup fs0 g) (dirsPlan raw)).2.1,
        (classifyAll env fs0 df home g files).2 ++ (Event.createFolder g ::
          ((collisionPhase (fsAfterGroup fs0 g) moves).2 ++
            (createDirs (fsAfterGroup fs0 g) (dirsPlan raw)).2.2))) := by
    simp [runPlanned, hcfe, hcol, hci, hcd, hsf]
  rw [hrp]
  refine ⟨rfl, checkSameFs_crossFs_ex hsf, ?_, rfl⟩
  show renamedPairs ((classifyAll env fs0 df home g files).2 ++
    (Event.createFolder g :: ((collisionPhase (fsAfterGroup fs0 g) moves).2 ++
      (createDirs (fsAfterGroup fs0 g) (dirsPlan raw)).2.2))) = []
  rw [renamedPairs_append,
    renamedPairs_report_nil (classifyAll_events_report env fs0 df home g files),
    renamedPairs_cons_createFolder, renamedPairs_append,
    renamedPairs_collision_nil, renamedPairs_createDirs_nil]
  rfl

/-- C8 witness: the cross-filesystem oracle rejects the single planned
move, the run errors naming source and destination parent, and no rename
event occurs. -/
theorem C8_cross_filesystem_aborts_witness :
    (importCmd exEnvCross exFs exHome exG [["home", "a", "f"]]).1 =
      Outcome.error (ErrMsg.crossFs ["home", "a", "f"] ["dots", "grp", "a"]) ∧
    renamedPairs
      ((importCmd exEnvCross exFs exHome exG [["home", "a", "f"]]).2.2) = [] := by
  have h := C8_cross_filesystem_aborts exEnvCross exFs exHome exG
    [["home", "a", "f"]] ["dots"]
    [FileToMove.mk ["home", "a", "f"] ["dots", "grp", "a", "f"]]
    [["dots", "grp", "a"]] ["home", "a", "f"] ["dots", "grp", "a"]
    (by decide) (by decide) (by decide) (by decide) (by decide) (by decide)
    (by decide) (by decide)
  exact ⟨h.1, h.2.2.1⟩

/-- C5: a file whose canonical path lies inside the dotfiles root is
skipped: a skip report is emitted, no planned move carries its path, no
rename in the whole run has it as source, and its entry on disk is
untouched (under the hypothesis that no planned move's source or
destination subtree covers it). -/
theorem C5_inside_dotfiles_skipped (env : Env) (fs0 : FS) (home g : Path)
    (files : List Path) (df : Path) (moves : List FileToMove)
    (p c np : Path) (e : Entry)
    (hdf : parentPath g = some df)
    (hcl : (classifyAll env fs0 df home g files).1 = Except.ok moves)
    (hp : p ∈ files) (hc : env.canonicalize p = some c)
    (hin : stripPre df c = some np)
    (hent : fs0 p = some e)
    (hsep : ∀ m ∈ moves, isPre m.path p = false ∧ isPre m.to_path p = false) :
    (Event.skip p ∈ (importCmd env fs0 home g files).2.2 ∨
      Event.skipSymlink p np ∈ (importCmd env fs0 home g files).2.2) ∧
    (∀ m ∈ moves, m.path ≠ p) ∧
    (∀ s d, (s, d) ∈ renamedPairs ((importCmd env fs0 home g files).2.2) →
      s ≠ p) ∧
    (importCmd env fs0 home g files).2.1 p = some e := by
  have hne : files ≠ [] := List.ne_nil_of_mem hp
  obtain ⟨abs, habs, hclz, hevs⟩ := classifyAll_ok_ex hcl
  have hzip := mem_zip_of_canonical habs hp hc
  have heq := importCmd_eq_runPlanned hne hdf hcl
  have hrep := classifyAll_events_report env fs0 df home g files
  have hnomove : ∀ m ∈ moves, m.path ≠ p := by
    intro m hm hmp
    obtain ⟨a, hmem, hdfn, r, _, _⟩ := classify_ok_sound hclz m hm
    rw [hmp] at hmem
    have hca := mapCanonicalize_ok_zip habs (a, p) hmem
    rw [hc] at hca
    injection hca with hca
    subst hca
    rw [hin] at hdfn
    cases hdfn
  refine ⟨?_, hnomove, ?_, ?_⟩
  · rcases classify_skip_mem hclz hzip hin with h' | h'
    · left
      rw [heq]
      exact runPlanned_mem_evs1 (hevs ▸ h')
    · right
      rw [heq]
      exact runPlanned_mem_evs1 (hevs ▸ h')
  · intro s d hsd
    rw [heq] at hsd
    have hmem := runPlanned_renames_sub hrep hsd
    exact hnomove _ hmem
  · rw [heq]
    exact runPlanned_fs_preserve hsep hent

/-- C5 witness: in a batch with a dotfiles-internal file and a home file,
the internal file is skipped, unplanned, never a rename source, and its
entry is preserved. -/
theorem C5_inside_dotfiles_skipped_witness :
    (Event.skip ["dots", "x"] ∈
      (importCmd exEnv exFs exHome exG
        [["dots", "x"], ["home", "a", "f"]]).2.2 ∨
     Event.skipSymlink ["dots", "x"] ["x"] ∈
      (importCmd exEnv exFs exHome exG
        [["dots", "x"], ["home", "a", "f"]]).2.2) ∧
    (importCmd exEnv exFs exHome exG
      [["dots", "x"], ["home", "a", "f"]]).2.1 ["dots", "x"] =
        some (Entry.file "xdata") := by
  have h := C5_inside_dotfiles_skipped exEnv exFs exHome exG
    [["dots", "x"], ["home", "a", "f"]] ["dots"]
    [FileToMove.mk ["home", "a", "f"] ["dots", "grp", "a", "f"]]
    ["dots", "x"] ["dots", "x"] ["x"] (Entry.file "xdata")
    (by decide) (by decide) (by decide) (by decide) (by decide) (by decide)
    (by decide)
  exact ⟨h.1, h.2.2.2⟩

/-- C6: a symlink whose canonical path resolves outside the dotfiles root
and inside home_dir is warned about but still processed: it appears among
the planned moves, and on success its rename is performed. -/
theorem C6_symlink_warned_and_moved (env : Env) (fs0 : FS) (home g : Path)
    (files : List Path) (df : Path) (moves : List FileToMove) (p c rel : Path)
    (hdf : parentPath g = some df)
    (hcl : (classifyAll env fs0 df home g files).1 = Except.ok moves)
    (hp : p ∈ files) (hc : env.canonicalize p = some c)
    (hout : stripPre df c = none) (hhome : stripPre home c = some rel)
    (hsym : isSymlinkAt fs0 p = true) :
    Event.warnSymlink p ∈ (importCmd env fs0 home g files).2.2 ∧
    FileToMove.mk p (g ++ rel) ∈ moves ∧
    ((importCmd env fs0 home g files).1 = Outcome.ok →
      Event.rename p (g ++ rel) ∈ (importCmd env fs0 home g files).2.2) := by
  have hne : files ≠ [] := List.ne_nil_of_mem hp
  obtain ⟨abs, habs, hclz, hevs⟩ := classifyAll_ok_ex hcl
  have hzip := mem_zip_of_canonical habs hp hc
  have heq := importCmd_eq_runPlanned hne hdf hcl
  refine ⟨?_, classify_ok_complete hclz hzip hout hhome, ?_⟩
  · rw [heq]
    exact runPlanned_mem_evs1 (hevs ▸ classify_warn_mem hclz hzip hout hsym)
  · intro hok
    rw [heq] at hok ⊢
    obtain ⟨fs1, hcf, hcp, raw, hci, hcd, hsf, hdr, hfull⟩ := runPlanned_ok_ex hok
    rw [hfull]
    have hmv := classify_ok_complete hclz hzip hout hhome
    have hev : Event.rename p (g ++ rel) ∈
        (doRenames ((createDirs fs1 (dirsPlan raw)).2.1) moves).2.2 := by
      rw [doRenames_ok_events _ _ hdr]
      exact List.mem_map_of_mem _ hmv
    show Event.rename p (g ++ rel) ∈
      (classifyAll env fs0 df home g files).2 ++ (Event.createFolder g ::
        ((collisionPhase fs1 moves).2 ++ (createDirs fs1 (dirsPlan raw)).2.2 ++
          (doRenames ((createDirs fs1 (dirsPlan raw)).2.1) moves).2.2))
    exact List.mem_append_right _
      (List.mem_cons_of_mem _ (List.mem_append_right _ hev))

/-- C6 witness: the symlink `home/s` is warned about, planned, and its
rename occurs in the successful run. -/
theorem C6_symlink_warned_and_moved_witness :
    Event.warnSymlink ["home", "s"] ∈
      (importCmd exEnv exFs exHome exG [["home", "s"]]).2.2 ∧
    FileToMove.mk ["home", "s"] ["dots", "grp", "s"] ∈
      [FileToMove.mk ["home", "s"] ["dots", "grp", "s"]] ∧
    Event.rename ["home", "s"] ["dots", "grp", "s"] ∈
      (importCmd exEnv exFs exHome exG [["home", "s"]]).2.2 := by
  have h := C6_symlink_warned_and_moved exEnv exFs exHome exG
    [["home", "s"]] ["dots"]
    [FileToMove.mk ["home", "s"] ["dots", "grp", "s"]]
    ["home", "s"] ["home", "s"] ["s"]
    (by decide) (by decide) (by decide) (by decide) (by decide) (by decide)
    (by decide)
  exact ⟨h.1, h.2.1, h.2.2 (by decide)⟩

/-- C3 counterexample: in a concrete successful run with one planned
move, the group folder is created before the destination-collision check
runs, so the claim "no directory creation (the idempotent creation of
group_dir included) before the collision check has been run for every
planned move" is false on the code. -/
theorem C3_counterexample :
    (classifyAll exEnv exFs ["dots"] exHome exG [["home", "a", "f"]]).1 =
      Except.ok [FileToMove.mk ["home", "a", "f"] ["dots", "grp", "a", "f"]] ∧
    claimC3Pred [FileToMove.mk ["home", "a", "f"] ["dots", "grp", "a", "f"]]
      ((importCmd exEnv exFs exHome exG [["home", "a", "f"]]).2.2) = false :=
  ⟨by decide, by decide⟩

/-- C3 amended: group_dir itself is created (idempotently) before the
destination-collision checks; but no intermediate-directory creation and
no move is performed before the collision check has been run for every
planned move: once a late mutation (intermediate-directory creation or
rename) occurs, no further collision check follows, and whenever any late
mutation occurred at all, the collision checks in the trace are exactly
one per planned move, in plan order. -/
theorem C3_amended_ordering (env : Env) (fs0 : FS) (home g : Path)
    (files : List Path) :
    checksPrecedeLateMutations ((importCmd env fs0 home g files).2.2) = true ∧
    ∀ df moves, parentPath g = some df →
      (classifyAll env fs0 df home g files).1 = Except.ok moves →
      (importCmd env fs0 home g files).2.2.any isLateMutationEv = true →
      (importCmd env fs0 home g files).2.2.filter isCollisionCheckEv =
        moves.map fun m => Event.collisionCheck m.to_path := by
  constructor
  · by_cases hne : files = []
    · subst hne
      rfl
    · cases hdf : parentPath g with
      | none =>
        rw [importCmd_malformed hne hdf]
        rfl
      | some df =>
        rcases hca : classifyAll env fs0 df home g files with ⟨res, evs⟩
        cases res with
        | error e =>
          have hclE : (classifyAll env fs0 df home g files).1 = Except.error e := by
            rw [hca]
          rw [importCmd_classify_error hne hdf hclE]
          exact checksPrecede_all_notlate fun x hx => report_not_late
            (classifyAll_events_report env fs0 df home g files x hx)
        | ok moves =>
          have hclO : (classifyAll env fs0 df home g files).1 = Except.ok moves := by
            rw [hca]
          rw [importCmd_eq_runPlanned hne hdf hclO]
          exact runPlanned_checksPrecede
            (classifyAll_events_report env fs0 df home g files)
  · intro df moves hdf hcl hany
    by_cases hne : files = []
    · subst hne
      cases hany
    · have hrep := classifyAll_events_report env fs0 df home g files
      have heq := importCmd_eq_runPlanned hne hdf hcl
      rw [heq] at hany ⊢
      have hA : ∀ fs1, ∀ x ∈ (classifyAll env fs0 df home g files).2 ++
          (Event.createFolder g :: (collisionPhase fs1 moves).2),
          isLateMutationEv x = false := by
        intro fs1 x hx
        rcases List.mem_append.mp hx with h' | h'
        · exact report_not_late (hrep x h')
        · rcases List.mem_cons.mp h' with rfl | h''
          · rfl
          · obtain ⟨d', rfl⟩ := collisionPhase_events_shape fs1 moves x h''
            rfl
      have hfrep : (classifyAll env fs0 df home g files).2.filter
          isCollisionCheckEv = [] :=
        filter_eq_nil_of_false fun x hx => report_not_check (hrep x hx)
      rcases runPlanned_cases env fs0 g moves
          (classifyAll env fs0 df home g files).2 with ⟨_, heq0⟩ | ⟨fs1, hcf, hbr⟩
      · rw [heq0] at hany
        rw [any_late_false fun x hx => report_not_late (hrep x hx)] at hany
        cases hany
      · rcases hbr with ⟨dst, _, heq0⟩ | ⟨hcp, hbr⟩
        · rw [heq0] at hany
          rw [any_late_false (hA fs1)] at hany
          cases hany
        · have hcp2 := collisionPhase_none_events hcp
          have hfdirs : ∀ raw, ((createDirs fs1 (dirsPlan raw)).2.2).filter
              isCollisionCheckEv = [] := by
            intro raw
            refine filter_eq_nil_of_false fun x hx => ?_
            obtain ⟨d', rfl⟩ := createDirs_events_shape (dirsPlan raw) fs1 x hx
            rfl
          have hfren : ∀ raw, ((doRenames ((createDirs fs1 (dirsPlan raw)).2.1)
              moves).2.2).filter isCollisionCheckEv = [] := by
            intro raw
            refine filter_eq_nil_of_false fun x hx => ?_
            obtain ⟨m, hm, rfl⟩ := doRenames_events_shape moves
              ((createDirs fs1 (dirsPlan raw)).2.1) x hx
            rfl
          rcases hbr with ⟨pm, _, heq0⟩ | ⟨raw, _, hbr⟩
          · rw [heq0] at hany
            rw [any_late_false (hA fs1)] at hany
            cases hany
          · rcases hbr with ⟨e', _, heq0⟩ | ⟨_, hbr⟩
            · rw [heq0]
              show ((classifyAll env fs0 df home g files).2 ++
                (Event.createFolder g :: ((collisionPhase fs1 moves).2 ++
                  (createDirs fs1 (dirsPlan raw)).2.2))).filter isCollisionCheckEv =
                moves.map fun m => Event.collisionCheck m.to_path
              rw [List.filter_append, hfrep, List.nil_append, List.filter_cons]
              simp only [isCollisionCheckEv, Bool.false_eq_true, if_false]
              rw [List.filter_append, hfdirs raw, List.append_nil, hcp2,
                filter_checks_map]
            · rcases hbr with ⟨e', _, heq0⟩ | ⟨pm, _, heq0⟩ | ⟨_, hbr⟩
              · rw [heq0]
                show ((classifyAll env fs0 df home g files).2 ++
                  (Event.createFolder g :: ((collisionPhase fs1 moves).2 ++
                    (createDirs fs1 (dirsPlan raw)).2.2))).filter isCollisionCheckEv =
                  moves.map fun m => Event.collisionCheck m.to_path
                rw [List.filter_append, hfrep, List.nil_append, List.filter_cons]
                simp only [isCollisionCheckEv, Bool.false_eq_true, if_false]
                rw [List.filter_append, hfdirs raw, List.append_nil, hcp2,
                  filter_checks_map]
              · rw [heq0]
                show ((classifyAll env fs0 df home g files).2 ++
                  (Event.createFolder g :: ((collisionPhase fs1 moves).2 ++
                    (createDirs fs1 (dirsPlan raw)).2.2))).filter isCollisionCheckEv =
                  moves.map fun m => Event.collisionCheck m.to_path
                rw [List.filter_append, hfrep, List.nil_append, List.filter_cons]
                simp only [isCollisionCheckEv, Bool.false_eq_true, if_false]
                rw [List.filter_append, hfdirs raw, List.append_nil, hcp2,
                  filter_checks_map]
              · rcases hbr with ⟨e', _, heq0⟩ | ⟨_, heq0⟩ <;>
                  · rw [heq0]
                    show ((classifyAll env fs0 df home g files).2 ++
                      (Event.createFolder g :: ((collisionPhase fs1 moves).2 ++
                        (createDirs fs1 (dirsPlan raw)).2.2 ++
                        (doRenames ((createDirs fs1 (dirsPlan raw)).2.1)
                          moves).2.2))).filter isCollisionCheckEv =
                      moves.map fun m => Event.collisionCheck m.to_path
                    rw [List.filter_append, hfrep, List.nil_append, List.filter_cons]
                    simp only [isCollisionCheckEv, Bool.false_eq_true, if_false]
                    rw [List.filter_append, List.filter_append, hfdirs raw,
                      hfren raw, List.append_nil, List.append_nil, hcp2,
                      filter_checks_map]

/-- C3 amended witness at a concrete run that performs late mutations. -/
theorem C3_amended_ordering_witness :
    checksPrecedeLateMutations
      ((importCmd exEnv exFs exHome exG [["home", "a", "f"]]).2.2) = true ∧
    (importCmd exEnv exFs exHome exG [["home", "a", "f"]]).2.2.filter
        isCollisionCheckEv =
      [FileToMove.mk ["home", "a", "f"] ["dots", "grp", "a", "f"]].map
        fun m => Event.collisionCheck m.to_path := by
  have h := C3_amended_ordering exEnv exFs exHome exG [["home", "a", "f"]]
  exact ⟨h.1, h.2 ["dots"]
    [FileToMove.mk ["home", "a", "f"] ["dots", "grp", "a", "f"]]
    (by decide) (by decide) (by decide)⟩

/-- C7: for every planned move, a destination parent occupied by a
non-directory aborts the run fatally naming the obstructed slot; a missing
parent other than group_dir itself is recorded; and the directories
actually created are exactly the recorded list deduplicated (no created
directory is a strict descendant of another) and sorted. -/
theorem C7_intermediate_dirs (env : Env) (fs0 : FS) (home g : Path)
    (files : List Path) (df : Path) (moves : List FileToMove)
    (hne : files ≠ []) (hdf : parentPath g = some df)
    (hcl : (classifyAll env fs0 df home g files).1 = Except.ok moves)
    (hcf : (create_folder_at fs0 g).isSome = true)
    (hcol : (collisionPhase (fsAfterGroup fs0 g) moves).1 = none) :
    (∀ pd, collectIntermediate (fsAfterGroup fs0 g) g moves =
        Except.error (PanicMsg.obstructed pd) →
      (importCmd env fs0 home g files).1 =
        Outcome.panic (PanicMsg.obstructed pd) ∧
      ((fsAfterGroup fs0 g) pd).isSome = true ∧
      (fsAfterGroup fs0 g) pd ≠ some Entry.dir ∧
      ∃ m ∈ moves, parentPath m.to_path = some pd) ∧
    (∀ raw, collectIntermediate (fsAfterGroup fs0 g) g moves = Except.ok raw →
      raw = moves.filterMap (fun m =>
        match parentPath m.to_path with
        | none => none
        | some pd =>
          if ((fsAfterGroup fs0 g) pd).isSome then none
          else if pd = g then none else some pd) ∧
      pathsSorted (dirsPlan raw) = true ∧
      noNested (dirsPlan raw) = true ∧
      ((createDirs (fsAfterGroup fs0 g) (dirsPlan raw)).1 = Except.ok () →
        createdDirs ((importCmd env fs0 home g files).2.2) = dirsPlan raw)) := by
  have hcfe := create_folder_at_eq hcf
  have heq := importCmd_eq_runPlanned hne hdf hcl
  have hrep := classifyAll_events_report env fs0 df home g files
  constructor
  · intro pd hobs
    have hrp : runPlanned env fs0 g moves
        (classifyAll env fs0 df home g files).2 =
        (Outcome.panic (PanicMsg.obstructed pd), fsAfterGroup fs0 g,
          (classifyAll env fs0 df home g files).2 ++ (Event.createFolder g ::
            (collisionPhase (fsAfterGroup fs0 g) moves).2)) := by
      simp [runPlanned, hcfe, hcol, hobs]
    refine ⟨by rw [heq, hrp], ?_⟩
    rcases collect_err_shape hobs with h' | ⟨pd', h1, h2, h3, hex⟩
    · cases h'
    · injection h1 with h1
      subst h1
      exact ⟨h2, h3, hex⟩
  · intro raw hok
    refine ⟨collect_ok_eq hok, pathsSorted_dirsPlan raw, noNested_dirsPlan raw, ?_⟩
    intro hcd
    rw [heq]
    rcases runPlanned_cases env fs0 g moves
        (classifyAll env fs0 df home g files).2 with ⟨hnone, _⟩ | ⟨fs1, hcf', hbr⟩
    · rw [hcfe] at hnone
      cases hnone
    · have hfs1 : fs1 = fsAfterGroup fs0 g := by
        rw [hcfe] at hcf'
        injection hcf' with h'
        exact h'.symm
      subst hfs1
      have hdirsEvents : (createDirs (fsAfterGroup fs0 g) (dirsPlan raw)).2.2 =
          (dirsPlan raw).map Event.createDirAll := createDirs_ok_events _ _ hcd
      rcases hbr with ⟨dst, hsome, _⟩ | ⟨_, hbr⟩
      · rw [hcol] at hsome
        cases hsome
      · rcases hbr with ⟨pm, hci', _⟩ | ⟨raw', hci', hbr⟩
        · rw [hok] at hci'
          cases hci'
        · rw [hok] at hci'
          injection hci' with hci'
          subst hci'
          rcases hbr with ⟨e', hcd', _⟩ | ⟨_, hbr⟩
          · rw [hcd] at hcd'
            cases hcd'
          · rcases hbr with ⟨e', _, heq0⟩ | ⟨pm, _, heq0⟩ | ⟨_, hbr⟩
            · rw [heq0]
              show createdDirs ((classifyAll env fs0 df home g files).2 ++
                (Event.createFolder g ::
                  ((collisionPhase (fsAfterGroup fs0 g) moves).2 ++
                    (createDirs (fsAfterGroup fs0 g) (dirsPlan raw)).2.2))) =
                dirsPlan raw
              rw [createdDirs_append, createdDirs_report_nil hrep,
                createdDirs_cons_createFolder, createdDirs_append,
                createdDirs_collision_nil, hdirsEvents, createdDirs_map,
                List.nil_append, List.nil_append]
            · rw [heq0]
              show createdDirs ((classifyAll env fs0 df home g files).2 ++
                (Event.createFolder g ::
                  ((collisionPhase (fsAfterGroup fs0 g) moves).2 ++
                    (createDirs (fsAfterGroup fs0 g) (dirsPlan raw)).2.2))) =
                dirsPlan raw
              rw [createdDirs_append, createdDirs_report_nil hrep,
                createdDirs_cons_createFolder, createdDirs_append,
                createdDirs_collision_nil, hdirsEvents, createdDirs_map,
                List.nil_append, List.nil_append]
            · rcases hbr with ⟨e', _, heq0⟩ | ⟨_, heq0⟩ <;>
                · rw [heq0]
                  show createdDirs ((classifyAll env fs0 df home g files).2 ++
                    (Event.createFolder g ::
                      ((collisionPhase (fsAfterGroup fs0 g) moves).2 ++
                        (createDirs (fsAfterGroup fs0 g) (dirsPlan raw)).2.2 ++
                        (doRenames ((createDirs (fsAfterGroup fs0 g)
                          (dirsPlan raw)).2.1) moves).2.2))) = dirsPlan raw
                  rw [createdDirs_append, createdDirs_report_nil hrep,
                    createdDirs_cons_createFolder, createdDirs_append,
                    createdDirs_append, createdDirs_collision_nil,
                    createdDirs_doRenames_nil, hdirsEvents, createdDirs_map,
                    List.nil_append, List.nil_append, List.append_nil]

/-- C7 witness: a run that must create the intermediate directory
`dots/grp/a`: it is recorded, the plan is sorted and nesting-free, and it
is exactly what gets created. -/
theorem C7_intermediate_dirs_witness :
    [["dots", "grp", "a"]] =
      [FileToMove.mk ["home", "a", "f"] ["dots", "grp", "a", "f"]].filterMap
        (fun m =>
          match parentPath m.to_path with
          | none => none
          | some pd =>
            if ((fsAfterGroup exFs exG) pd).isSome then none
            else if pd = exG then none else some pd) ∧
    pathsSorted (dirsPlan [["dots", "grp", "a"]]) = true ∧
    noNested (dirsPlan [["dots", "grp", "a"]]) = true ∧
    createdDirs ((importCmd exEnv exFs exHome exG [["home", "a", "f"]]).2.2) =
      dirsPlan [["dots", "grp", "a"]] := by
  have h := (C7_intermediate_dirs exEnv exFs exHome exG [["home", "a", "f"]]
    ["dots"] [FileToMove.mk ["home", "a", "f"] ["dots", "grp", "a", "f"]]
    (by decide) (by decide) (by decide) (by decide) (by decide)).2
    [["dots", "grp", "a"]] (by decide)
  exact ⟨h.1, h.2.1, h.2.2.1, h.2.2.2 (by decide)⟩

/-- C1: on a successful import, a file whose canonical path lies inside
home_dir and outside the dotfiles root no longer exists at its original
path (its whole subtree is gone), and every entry that was under it in the
starting filesystem exists unchanged under group_dir joined with the
home-relative path — under the hypotheses that its planned move occurs
once and does not overlap the other planned moves. -/
theorem C1_import_moves_file (env : Env) (fs0 : FS) (home g : Path)
    (files : List Path) (df : Path) (moves : List FileToMove) (p c rel : Path)
    (hdf : parentPath g = some df)
    (hok : (importCmd env fs0 home g files).1 = Outcome.ok)
    (hp : p ∈ files) (hc : env.canonicalize p = some c)
    (hout : stripPre df c = none) (hhome : stripPre home c = some rel)
    (hcl : (classifyAll env fs0 df home g files).1 = Except.ok moves)
    (hcount : moves.count (FileToMove.mk p (g ++ rel)) = 1)
    (hsep : ∀ m ∈ moves, m ≠ FileToMove.mk p (g ++ rel) →
      noOverlap m.path p = true ∧ noOverlap m.to_path p = true ∧
      noOverlap m.path (g ++ rel) = true ∧
      noOverlap m.to_path (g ++ rel) = true)
    (hself : noOverlap p (g ++ rel) = true) :
    (∀ t e, fs0 (p ++ t) = some e →
      (importCmd env fs0 home g files).2.1 ((g ++ rel) ++ t) = some e) ∧
    (∀ t, (importCmd env fs0 home g files).2.1 (p ++ t) = none) := by
  have hne : files ≠ [] := List.ne_nil_of_mem hp
  obtain ⟨abs, habs, hclz, hevs⟩ := classifyAll_ok_ex hcl
  have hmv : FileToMove.mk p (g ++ rel) ∈ moves :=
    classify_ok_complete hclz (mem_zip_of_canonical habs hp hc) hout hhome
  have heq := importCmd_eq_runPlanned hne hdf hcl
  rw [heq] at hok ⊢
  obtain ⟨fs1, hcf, hcp, raw, hci, hcd, hsf, hdr, hfull⟩ := runPlanned_ok_ex hok
  rw [hfull]
  have hspec := doRenames_move_spec moves ((createDirs fs1 (dirsPlan raw)).2.1)
    (FileToMove.mk p (g ++ rel)) hdr hmv hcount hsep hself
  constructor
  · intro t e he
    have h1 : fs1 (p ++ t) = some e := create_folder_preserve hcf he
    have h2 := createDirs_preserve (dirsPlan raw) fs1 h1
    show (doRenames ((createDirs fs1 (dirsPlan raw)).2.1) moves).2.1
      ((g ++ rel) ++ t) = some e
    rw [hspec.1 t]
    exact h2
  · intro t
    exact hspec.2 t

/-- C1 witness: the concrete file `home/a/f` ends up at
`dots/grp/a/f` with its content, and is gone from `home/a/f`. -/
theorem C1_import_moves_file_witness :
    (importCmd exEnv exFs exHome exG [["home", "a", "f"]]).2.1
      (["dots", "grp", "a", "f"] ++ []) = some (Entry.file "data") ∧
    (importCmd exEnv exFs exHome exG [["home", "a", "f"]]).2.1
      (["home", "a", "f"] ++ []) = none := by
  have h := C1_import_moves_file exEnv exFs exHome exG [["home", "a", "f"]]
    ["dots"] [FileToMove.mk ["home", "a", "f"] ["dots", "grp", "a", "f"]]
    ["home", "a", "f"] ["home", "a", "f"] ["a", "f"]
    (by decide) (by decide) (by decide) (by decide) (by decide) (by decide)
    (by decide) (by decide) (by decide) (by decide)
  exact ⟨h.1 [] (Entry.file "data") (by decide), h.2 []⟩

end Dotin
